import Mathlib

/-! BetterTouchpad native layer

A shallow embedding of the C sources under `app/src/main/cpp`:

* `touchpad_bridge.c`: the evdev event loop that decodes multitouch events
  into frames and calls back into the consumer;
* `uinput_mouse.c`: the virtual pointer device with the hi-res scroll
  accumulators;
* `uinput_touch.c`: the virtual multitouch device;
* `evdev_grab.c`: the receiving side of the descriptor handoff;
* `root_helper.c`: the privileged helper that opens the device and hands
  the descriptors over.

C `int` values are `Int`; where an addition can leave the 32-bit range it is
wrapped explicitly (`wrap32`).  A write to a uinput descriptor (`emit`) is
modelled as appending the event to the list of events written so far.
Calls into the Java callback object are modelled as a list of `Callback`
values in call order.
-/

namespace BetterTouchpad

/-! ## Constants of the Linux input protocol (`linux/input-event-codes.h`) -/

def EV_SYN : Nat := 0x00
def EV_KEY : Nat := 0x01
def EV_REL : Nat := 0x02
def EV_ABS : Nat := 0x03
def SYN_REPORT : Nat := 0
def SYN_DROPPED : Nat := 3
def REL_X : Nat := 0x00
def REL_Y : Nat := 0x01
def REL_HWHEEL : Nat := 0x06
def REL_WHEEL : Nat := 0x08
def REL_WHEEL_HI_RES : Nat := 0x0b
def REL_HWHEEL_HI_RES : Nat := 0x0c
def ABS_MT_SLOT : Nat := 0x2f
def ABS_MT_POSITION_X : Nat := 0x35
def ABS_MT_POSITION_Y : Nat := 0x36
def ABS_MT_TRACKING_ID : Nat := 0x39

/-! ## Constants of `errno.h` and `poll.h` -/

def EINTR : Int := 4
def EAGAIN : Int := 11
def EWOULDBLOCK : Int := 11
def POLLIN : Nat := 0x001
def POLLERR : Nat := 0x008
def POLLHUP : Nat := 0x010
def POLLNVAL : Nat := 0x020

/-- The kernel's `struct input_event` without its timestamp: `type` and
`code` are `__u16`, `value` is `__s32`. -/
structure InputEvent where
  type : Nat
  code : Nat
  value : Int
deriving DecidableEq, Repr

/-! ## touchpad_bridge.c -/

/-- `#define MAX_SLOTS 10` of touchpad_bridge.c. -/
def MAX_SLOTS : Nat := 10

/-- Capacity of the local arrays `frame_key_codes[16]`, `frame_key_vals[16]`. -/
def KEY_CAPACITY : Nat := 16

/-- The struct `SlotState`: per-slot tracking state. -/
structure SlotState where
  tracking_id : Int
  x : Int
  y : Int
  active : Int
deriving DecidableEq, Repr

instance : Inhabited SlotState := ⟨⟨0, 0, 0, 0⟩⟩

/-- The arguments of one `onFrame` call: four arrays and the slot count. -/
structure Frame where
  slot_active : List Int
  tracking_ids : List Int
  xs : List Int
  ys : List Int
  count : Int
deriving DecidableEq, Repr

/-- A call into the Java callback object. -/
inductive Callback where
  | onKeyEvent (code : Int) (value : Int)
  | onFrame (f : Frame)
deriving DecidableEq, Repr

/-- The mutable state the event loop works on: the globals `g_callback_obj`
(only whether it is non-NULL), `slots`, `current_slot`, and the locals of
`startEventLoop` that live across loop iterations. -/
structure Dispatcher where
  g_callback_obj : Bool
  slots : List SlotState
  current_slot : Int
  frame_key_codes : List Int
  frame_key_vals : List Int
  frame_key_count : Nat
  consecutive_errors : Int
deriving DecidableEq, Repr

/-- The states the C program can be in: the arrays have their declared
sizes, the key count is within the key arrays and the slot index within the
slot table. -/
def Dispatcher.WF (st : Dispatcher) : Prop :=
  st.slots.length = MAX_SLOTS ∧ 0 ≤ st.current_slot ∧ st.current_slot < MAX_SLOTS ∧
  st.frame_key_codes.length = KEY_CAPACITY ∧ st.frame_key_vals.length = KEY_CAPACITY ∧
  st.frame_key_count ≤ KEY_CAPACITY

instance (st : Dispatcher) : Decidable st.WF := by
  unfold Dispatcher.WF; infer_instance

/-- Read `slots[i]`. -/
def readSlot (slots : List SlotState) (i : Nat) : SlotState :=
  slots.getD i default

/-- The assignment `slots[i] = f(slots[i])` for a C `int` index. An index
outside the array is outside the model and leaves the table as it is. -/
def writeSlot (slots : List SlotState) (i : Int) (f : SlotState → SlotState) : List SlotState :=
  if 0 ≤ i then slots.set i.toNat (f (readSlot slots i.toNat)) else slots

/-- The slot table after `memset(slots, 0, sizeof(slots))`. -/
def zeroedSlots : List SlotState :=
  List.replicate MAX_SLOTS ⟨0, 0, 0, 0⟩

/-- The function `dispatch_frame`: nothing when no callback object is set;
otherwise the buffered key events, the reset of the key count, and the frame
built from the slot table. -/
def dispatch_frame (st : Dispatcher) : Dispatcher × List Callback :=
  if st.g_callback_obj = false then (st, [])
  else
    let keys := (List.range st.frame_key_count).map fun k =>
      Callback.onKeyEvent (st.frame_key_codes.getD k 0) (st.frame_key_vals.getD k 0)
    let st1 := { st with frame_key_count := 0 }
    let frame : Frame :=
      { slot_active := (List.range MAX_SLOTS).map fun s => (readSlot st.slots s).active
        tracking_ids := (List.range MAX_SLOTS).map fun s => (readSlot st.slots s).tracking_id
        xs := (List.range MAX_SLOTS).map fun s => (readSlot st.slots s).x
        ys := (List.range MAX_SLOTS).map fun s => (readSlot st.slots s).y
        count := MAX_SLOTS }
    (st1, keys ++ [Callback.onFrame frame])

/-- The body of the `for` loop over the events of one read: the handling of
one `struct input_event`. -/
def handleEvent (st : Dispatcher) (e : InputEvent) : Dispatcher × List Callback :=
  if e.type = EV_ABS then
    if e.code = ABS_MT_SLOT then
      let c0 := e.value
      let c1 := if c0 < 0 then 0 else c0
      let c2 := if c1 ≥ (MAX_SLOTS : Int) then (MAX_SLOTS : Int) - 1 else c1
      ({ st with current_slot := c2 }, [])
    else if e.code = ABS_MT_TRACKING_ID then
      ({ st with slots := writeSlot st.slots st.current_slot fun s =>
          { s with tracking_id := e.value, active := if e.value ≠ -1 then 1 else 0 } }, [])
    else if e.code = ABS_MT_POSITION_X then
      ({ st with slots := writeSlot st.slots st.current_slot fun s => { s with x := e.value } }, [])
    else if e.code = ABS_MT_POSITION_Y then
      ({ st with slots := writeSlot st.slots st.current_slot fun s => { s with y := e.value } }, [])
    else (st, [])
  else if e.type = EV_KEY then
    if st.frame_key_count < KEY_CAPACITY then
      ({ st with
          frame_key_codes := st.frame_key_codes.set st.frame_key_count e.code
          frame_key_vals := st.frame_key_vals.set st.frame_key_count e.value
          frame_key_count := st.frame_key_count + 1 }, [])
    else (st, [])
  else if e.type = EV_SYN then
    if e.code = SYN_REPORT then dispatch_frame st
    else if e.code = SYN_DROPPED then
      ({ st with
          slots := zeroedSlots.map fun s => { s with tracking_id := -1 }
          frame_key_count := 0 }, [])
    else (st, [])
  else (st, [])

/-- The `for (i = 0; i < n; i++)` loop over the events of one read, with the
callbacks made on the way in call order. -/
def processEvents (st : Dispatcher) : List InputEvent → Dispatcher × List Callback
  | [] => (st, [])
  | e :: rest =>
    let r1 := handleEvent st e
    let r2 := processEvents r1.1 rest
    (r2.1, r1.2 ++ r2.2)

/-- What `poll(&pfd, 1, 200)` gave: its return value, `errno`, `pfd.revents`. -/
structure PollResult where
  ret : Int
  errno : Int
  revents : Nat
deriving DecidableEq, Repr

/-- What `read(fd, evbuf, sizeof(evbuf))` gave: its return value, `errno`,
and the `nread / sizeof(struct input_event)` whole events in `evbuf`. -/
structure ReadResult where
  nread : Int
  errno : Int
  evbuf : List InputEvent
deriving DecidableEq, Repr

/-- What the environment supplies to one pass of `while (g_running)`: the
value of the stop flag at the loop head and the results of the two system
calls (the read result is only looked at when the read is reached). -/
structure Iteration where
  g_running : Bool
  poll : PollResult
  read : ReadResult
deriving DecidableEq, Repr

/-- One pass through the body of `while (g_running)`. The Boolean is `true`
when the pass leaves the loop through `break`. -/
def loopBody (st : Dispatcher) (it : Iteration) : Dispatcher × List Callback × Bool :=
  if it.poll.ret < 0 then
    if it.poll.errno = EINTR then (st, [], false) else (st, [], true)
  else if it.poll.ret = 0 then
    ({ st with consecutive_errors := 0 }, [], false)
  else if it.poll.revents &&& (POLLHUP ||| POLLERR ||| POLLNVAL) ≠ 0 then (st, [], true)
  else if it.poll.revents &&& POLLIN = 0 then (st, [], false)
  else if it.read.nread < 0 then
    if it.read.errno = EAGAIN ∨ it.read.errno = EWOULDBLOCK then (st, [], false)
    else
      let st1 := { st with consecutive_errors := st.consecutive_errors + 1 }
      if st1.consecutive_errors > 20 then (st1, [], true) else (st1, [], false)
  else if it.read.nread = 0 then (st, [], true)
  else
    let r := processEvents { st with consecutive_errors := 0 } it.read.evbuf
    (r.1, r.2, false)

/-- The `while (g_running)` loop run against the passes the environment
supplies. The Boolean is `true` when the loop has been left (stop flag
cleared or `break`), `false` when it is still running after the last pass
supplied. -/
def eventLoop (st : Dispatcher) : List Iteration → Dispatcher × List Callback × Bool
  | [] => (st, [], false)
  | it :: rest =>
    if it.g_running = false then (st, [], true)
    else
      let r1 := loopBody st it
      if r1.2.2 then (r1.1, r1.2.1, true)
      else
        let r2 := eventLoop r1.1 rest
        (r2.1, r1.2.1 ++ r2.2.1, r2.2.2)

/-- The initialisation at the head of `startEventLoop`: the slot table is
zeroed and every slot marked unoccupied, slot 0 is selected, the key count
and the error count start at 0. The key arrays are uninitialised locals and
keep whatever they hold. -/
def startState (g : Dispatcher) : Dispatcher :=
  { g with
    slots := zeroedSlots.map fun s => { s with tracking_id := -1, active := 0 }
    current_slot := 0
    frame_key_count := 0
    consecutive_errors := 0 }

/-- The function `startEventLoop(fd)`: returns at once on a negative
descriptor, otherwise initialises and runs the loop. -/
def startEventLoop (g : Dispatcher) (fd : Int) (its : List Iteration) :
    Dispatcher × List Callback × Bool :=
  if fd < 0 then (g, [], true) else eventLoop (startState g) its

/-! ## Writing to a uinput descriptor -/

/-- The helper `emit(fd, type, code, value)` of uinput_mouse.c and
uinput_touch.c: one `struct input_event` written to the descriptor. The
events written so far are `out`; the write is taken to succeed. -/
def emit (out : List InputEvent) (type code : Nat) (value : Int) : List InputEvent :=
  out ++ [⟨type, code, value⟩]

/-- A C `int` result brought back into the signed 32-bit range. -/
def wrap32 (x : Int) : Int :=
  (x + 2147483648) % 4294967296 - 2147483648

/-- The values of a C `int`. -/
def isInt32 (x : Int) : Prop :=
  -2147483648 ≤ x ∧ x ≤ 2147483647

instance (x : Int) : Decidable (isInt32 x) := by
  unfold isInt32; infer_instance

/-! ## uinput_mouse.c -/

/-- The file-level state of uinput_mouse.c: `mouse_fd` and the two hi-res
scroll accumulators. -/
structure Mouse where
  mouse_fd : Int
  hiResAccV : Int
  hiResAccH : Int
deriving DecidableEq, Repr

/-- The function `createMouseDevice`: `fd` is what `open("/dev/uinput")`
returned, `setupOk` and `createOk` say whether the `UI_DEV_SETUP` and
`UI_DEV_CREATE` ioctls succeeded. Returns the new state and the result. -/
def createMouseDevice (m : Mouse) (fd : Int) (setupOk createOk : Bool) : Mouse × Int :=
  if fd < 0 then (m, -1)
  else if setupOk = false then (m, -1)
  else if createOk = false then (m, -1)
  else ({ m with mouse_fd := fd }, fd)

/-- The function `sendRelMove(fd, dx, dy)`. -/
def sendRelMove (m : Mouse) (fd dx dy : Int) : Mouse × List InputEvent :=
  if fd < 0 then (m, [])
  else
    let out1 := if dx ≠ 0 then emit [] EV_REL REL_X dx else []
    let out2 := if dy ≠ 0 then emit out1 EV_REL REL_Y dy else out1
    (m, emit out2 EV_SYN SYN_REPORT 0)

/-- The function `sendWheel(fd, v, h)`. -/
def sendWheel (m : Mouse) (fd v h : Int) : Mouse × List InputEvent :=
  if fd < 0 then (m, [])
  else
    let out1 := if v ≠ 0 then emit [] EV_REL REL_WHEEL v else []
    let out2 := if h ≠ 0 then emit out1 EV_REL REL_HWHEEL h else out1
    (m, emit out2 EV_SYN SYN_REPORT 0)

/-- The block `if (v != 0) { ... }` that `sendWheelHiRes` has once per axis:
`hiCode` is the hi-res axis code, `tickCode` the legacy one, `acc` the
accumulator of the axis. C division truncates toward zero (`Int.tdiv`);
the additions are wrapped to 32 bits. -/
def hiResAxis (acc v : Int) (hiCode tickCode : Nat) (out : List InputEvent) :
    Int × List InputEvent :=
  if v ≠ 0 then
    let out1 := emit out EV_REL hiCode v
    let acc1 := wrap32 (acc + v)
    let ticks := acc1.tdiv 120
    if ticks ≠ 0 then
      (wrap32 (acc1 - wrap32 (ticks * 120)), emit out1 EV_REL tickCode ticks)
    else (acc1, out1)
  else (acc, out)

/-- The function `sendWheelHiRes(fd, v, h)`. -/
def sendWheelHiRes (m : Mouse) (fd v h : Int) : Mouse × List InputEvent :=
  if fd < 0 then (m, [])
  else
    let rv := hiResAxis m.hiResAccV v REL_WHEEL_HI_RES REL_WHEEL []
    let rh := hiResAxis m.hiResAccH h REL_HWHEEL_HI_RES REL_HWHEEL rv.2
    ({ m with hiResAccV := rv.1, hiResAccH := rh.1 }, emit rh.2 EV_SYN SYN_REPORT 0)

/-- The function `sendMouseButton(fd, btn, down)`; `(uint16_t)btn` keeps the
low 16 bits. -/
def sendMouseButton (m : Mouse) (fd btn : Int) (down : Bool) : Mouse × List InputEvent :=
  if fd < 0 then (m, [])
  else
    let out1 := emit [] EV_KEY (btn % 65536).toNat (if down then 1 else 0)
    (m, emit out1 EV_SYN SYN_REPORT 0)

/-- The function `destroyMouseDevice(fd)`. -/
def destroyMouseDevice (m : Mouse) (fd : Int) : Mouse × List InputEvent :=
  if fd < 0 then (m, [])
  else ({ m with hiResAccV := 0, hiResAccH := 0 }, [])

/-- A call of one of the entry points of uinput_mouse.c. -/
inductive MouseCall where
  | createMouseDevice (fd : Int) (setupOk createOk : Bool)
  | sendRelMove (fd dx dy : Int)
  | sendWheel (fd v h : Int)
  | sendWheelHiRes (fd v h : Int)
  | sendMouseButton (fd btn : Int) (down : Bool)
  | destroyMouseDevice (fd : Int)
deriving DecidableEq, Repr

/-- The effect of one call on the state, with the events it writes. -/
def MouseCall.run (m : Mouse) : MouseCall → Mouse × List InputEvent
  | .createMouseDevice fd s c => ((BetterTouchpad.createMouseDevice m fd s c).1, [])
  | .sendRelMove fd dx dy => BetterTouchpad.sendRelMove m fd dx dy
  | .sendWheel fd v h => BetterTouchpad.sendWheel m fd v h
  | .sendWheelHiRes fd v h => BetterTouchpad.sendWheelHiRes m fd v h
  | .sendMouseButton fd b d => BetterTouchpad.sendMouseButton m fd b d
  | .destroyMouseDevice fd => BetterTouchpad.destroyMouseDevice m fd

/-- A sequence of calls, with the events of each call in call order. -/
def runCalls (m : Mouse) : List MouseCall → Mouse × List (List InputEvent)
  | [] => (m, [])
  | c :: rest =>
    let r1 := c.run m
    let r2 := runCalls r1.1 rest
    (r2.1, r1.2 :: r2.2)

/-! ## uinput_touch.c -/

/-- The loop `for (i = 0; i < count; i++)` of `injectTouch` with `n` passes
left to run, `pts` the elements of the flat `points` array; reading past the
end of the array is outside the model and reads 0. -/
def injectLoop (pts : List Int) : Nat → Nat → List InputEvent → List InputEvent
  | 0, _, out => out
  | n + 1, i, out =>
    let slot := pts.getD (i * 4 + 0) 0
    let x := pts.getD (i * 4 + 1) 0
    let y := pts.getD (i * 4 + 2) 0
    let tid := pts.getD (i * 4 + 3) 0
    let out1 := emit out EV_ABS ABS_MT_SLOT slot
    let out2 := emit out1 EV_ABS ABS_MT_TRACKING_ID tid
    let out3 :=
      if tid ≥ 0 then emit (emit out2 EV_ABS ABS_MT_POSITION_X x) EV_ABS ABS_MT_POSITION_Y y
      else out2
    injectLoop pts n (i + 1) out3

/-- The function `injectTouch(fd, points, count)`: the events it writes. -/
def injectTouch (fd : Int) (pts : List Int) (count : Int) : List InputEvent :=
  if fd < 0 ∨ count ≤ 0 then []
  else emit (injectLoop pts count.toNat 0 []) EV_SYN SYN_REPORT 0

/-- The loop `for (i = 0; i < count; i++)` of `releaseAllTouches` with `n`
passes left to run. -/
def releaseLoop : Nat → Nat → List InputEvent → List InputEvent
  | 0, _, out => out
  | n + 1, i, out =>
    let out1 := emit out EV_ABS ABS_MT_SLOT i
    let out2 := emit out1 EV_ABS ABS_MT_TRACKING_ID (-1)
    releaseLoop n (i + 1) out2

/-- The function `releaseAllTouches(fd, count)`: the events it writes. -/
def releaseAllTouches (fd : Int) (count : Int) : List InputEvent :=
  if fd < 0 then []
  else emit (releaseLoop count.toNat 0 []) EV_SYN SYN_REPORT 0

/-! ## Vocabulary of the specification -/

/-- Whether the event is a sync report. -/
def InputEvent.isSyncReport (e : InputEvent) : Prop :=
  e.type = EV_SYN ∧ e.code = SYN_REPORT

/-- Whether the event is a sync dropped. -/
def InputEvent.isSyncDropped (e : InputEvent) : Prop :=
  e.type = EV_SYN ∧ e.code = SYN_DROPPED

instance (e : InputEvent) : Decidable e.isSyncReport := by
  unfold InputEvent.isSyncReport; infer_instance

instance (e : InputEvent) : Decidable e.isSyncDropped := by
  unfold InputEvent.isSyncDropped; infer_instance

/-- The fields of a slot. -/
inductive Field where
  | trackingId
  | active
  | x
  | y
deriving DecidableEq, Repr

/-- The value of a field of a slot. -/
def SlotState.field (s : SlotState) : Field → Int
  | .trackingId => s.tracking_id
  | .active => s.active
  | .x => s.x
  | .y => s.y

/-- The value a frame reports for a field of slot `s`. -/
def Frame.field (f : Frame) (fld : Field) (s : Nat) : Int :=
  match fld with
  | .trackingId => f.tracking_ids.getD s 0
  | .active => f.slot_active.getD s 0
  | .x => f.xs.getD s 0
  | .y => f.ys.getD s 0

/-- The slot selected once the event has been seen, `cur` being selected
before it: a slot-select event selects its value brought into 0..9. -/
def selectedAfter (cur : Int) (e : InputEvent) : Int :=
  if e.type = EV_ABS ∧ e.code = ABS_MT_SLOT then
    (if e.value < 0 then 0 else if e.value ≥ 10 then 9 else e.value)
  else cur

/-- The value the event writes to the field of the selected slot, if it
writes that field: a tracking-id event writes the tracking id and sets
`active` to whether the value is not -1; X and Y events write `x` and `y`. -/
def written (fld : Field) (e : InputEvent) : Option Int :=
  if e.type = EV_ABS then
    match fld with
    | .trackingId => if e.code = ABS_MT_TRACKING_ID then some e.value else none
    | .active =>
      if e.code = ABS_MT_TRACKING_ID then some (if e.value ≠ -1 then 1 else 0) else none
    | .x => if e.code = ABS_MT_POSITION_X then some e.value else none
    | .y => if e.code = ABS_MT_POSITION_Y then some e.value else none
  else none

/-- The value of the last event of the run that wrote field `fld` of slot
`s`, when slot `cur` is selected at the start of the run; `none` when no
event of the run wrote it. -/
def lastWrite (fld : Field) (s : Nat) (cur : Int) : List InputEvent → Option Int
  | [] => none
  | e :: rest =>
    match lastWrite fld s (selectedAfter cur e) rest with
    | some v => some v
    | none => if cur = (s : Int) then written fld e else none

/-- The key events of a run, as the pairs (code, value), in arrival order. -/
def keyEvents (evs : List InputEvent) : List (Int × Int) :=
  (evs.filter fun e => e.type = EV_KEY).map fun e => ((e.code : Int), e.value)

/-- The `onKeyEvent` calls for a list of (code, value) pairs. -/
def keyCalls (ks : List (Int × Int)) : List Callback :=
  ks.map fun k => Callback.onKeyEvent k.1 k.2

/-- The key events held in the key buffer: its first `frame_key_count`
entries. -/
def Dispatcher.buffered (st : Dispatcher) : List (Int × Int) :=
  (List.range st.frame_key_count).map fun k =>
    (st.frame_key_codes.getD k 0, st.frame_key_vals.getD k 0)

/-- The frame `dispatch_frame` builds from the slot table of the state. -/
def Dispatcher.snapshot (st : Dispatcher) : Frame :=
  { slot_active := (List.range MAX_SLOTS).map fun s => (readSlot st.slots s).active
    tracking_ids := (List.range MAX_SLOTS).map fun s => (readSlot st.slots s).tracking_id
    xs := (List.range MAX_SLOTS).map fun s => (readSlot st.slots s).x
    ys := (List.range MAX_SLOTS).map fun s => (readSlot st.slots s).y
    count := MAX_SLOTS }

/-- The process image before the first `startEventLoop`, with a callback
object set: the statics are zero-initialised; the key arrays, uninitialised
locals in the source, are taken as zeroed. -/
def bootGlobals : Dispatcher :=
  { g_callback_obj := true
    slots := zeroedSlots
    current_slot := 0
    frame_key_codes := List.replicate KEY_CAPACITY 0
    frame_key_vals := List.replicate KEY_CAPACITY 0
    frame_key_count := 0
    consecutive_errors := 0 }

/-- The run of the scenario: slot-select 0, trackingId 42, X 100, Y 200. -/
def scenarioRun : List InputEvent :=
  [⟨EV_ABS, ABS_MT_SLOT, 0⟩, ⟨EV_ABS, ABS_MT_TRACKING_ID, 42⟩,
    ⟨EV_ABS, ABS_MT_POSITION_X, 100⟩, ⟨EV_ABS, ABS_MT_POSITION_Y, 200⟩]

/-- The process image before the first `startEventLoop` when no callback
object has been set. -/
def bootGlobalsNoCallback : Dispatcher :=
  { bootGlobals with g_callback_obj := false }

/-- Whether the event writes a field of the selected slot: a tracking-id,
X or Y axis event. -/
def InputEvent.isAxisWrite (e : InputEvent) : Bool :=
  decide (e.type = EV_ABS ∧
    (e.code = ABS_MT_TRACKING_ID ∨ e.code = ABS_MT_POSITION_X ∨ e.code = ABS_MT_POSITION_Y))

/-- Whether some axis event of the run wrote slot `s`, when slot `cur` is
selected at the start of the run. -/
def wroteSlot (s : Nat) (cur : Int) : List InputEvent → Bool
  | [] => false
  | e :: rest =>
    (decide (cur = (s : Int)) && e.isAxisWrite) || wroteSlot s (selectedAfter cur e) rest

/-- A pass of the loop in which the loop is not stopped, the descriptor is
reported readable without hangup or error, and the read fails with an error
other than would-block. -/
def Iteration.isReadFailure (it : Iteration) : Prop :=
  it.g_running = true ∧ 0 < it.poll.ret ∧
  it.poll.revents &&& (POLLHUP ||| POLLERR ||| POLLNVAL) = 0 ∧
  it.poll.revents &&& POLLIN ≠ 0 ∧
  it.read.nread < 0 ∧ it.read.errno ≠ EAGAIN ∧ it.read.errno ≠ EWOULDBLOCK

/-- A pass of the loop in which the loop is not stopped, the descriptor is
reported readable without hangup or error, and the read returns length
zero. -/
def Iteration.isReadEOF (it : Iteration) : Prop :=
  it.g_running = true ∧ 0 < it.poll.ret ∧
  it.poll.revents &&& (POLLHUP ||| POLLERR ||| POLLNVAL) = 0 ∧
  it.poll.revents &&& POLLIN ≠ 0 ∧
  it.read.nread = 0

instance (it : Iteration) : Decidable it.isReadFailure := by
  unfold Iteration.isReadFailure; infer_instance

instance (it : Iteration) : Decidable it.isReadEOF := by
  unfold Iteration.isReadEOF; infer_instance

/-- A failing pass: readable (`POLLIN`), the read returns -1 with `EIO`. -/
def failingPass : Iteration :=
  { g_running := true
    poll := { ret := 1, errno := 0, revents := POLLIN }
    read := { nread := -1, errno := 5, evbuf := [] } }

/-- The sum of the values of the relative-axis events with the given code
among the events written. -/
def relSum (code : Nat) (evs : List InputEvent) : Int :=
  ((evs.filter fun e => e.type = EV_REL ∧ e.code = code).map fun e => e.value).sum

/-- The calls `sendWheelHiRes(fd, v, h)` for a list of pairs (v, h). -/
def hiResCalls (fd : Int) (vhs : List (Int × Int)) : List MouseCall :=
  vhs.map fun p => MouseCall.sendWheelHiRes fd p.1 p.2

/-- All the events a sequence of calls writes, in order. -/
def eventsOf (m : Mouse) (calls : List MouseCall) : List InputEvent :=
  (runCalls m calls).2.flatten

/-- Both accumulators have magnitude strictly below 120. -/
def Mouse.accBounded (m : Mouse) : Prop :=
  (-120 < m.hiResAccV ∧ m.hiResAccV < 120) ∧ (-120 < m.hiResAccH ∧ m.hiResAccH < 120)

instance (m : Mouse) : Decidable m.accBounded := by
  unfold Mouse.accBounded; infer_instance

/-- No accumulator addition of the calls `sendWheelHiRes(fd, v, h)` leaves
the range of a C `int`: `acc + v` is in range whenever `v` is nonzero, on
both axes and in every call of the sequence. -/
def noOverflow (fd : Int) (m : Mouse) : List (Int × Int) → Prop
  | [] => True
  | p :: rest =>
    (p.1 ≠ 0 → isInt32 (m.hiResAccV + p.1)) ∧ (p.2 ≠ 0 → isInt32 (m.hiResAccH + p.2)) ∧
      noOverflow fd (sendWheelHiRes m fd p.1 p.2).1 rest

/-- Deciding `noOverflow` call by call. -/
def noOverflow.dec (fd : Int) : (m : Mouse) → (l : List (Int × Int)) →
    Decidable (noOverflow fd m l)
  | _, [] => isTrue trivial
  | m, p :: rest =>
    have := noOverflow.dec fd (sendWheelHiRes m fd p.1 p.2).1 rest
    inferInstanceAs (Decidable ((p.1 ≠ 0 → isInt32 (m.hiResAccV + p.1)) ∧
      (p.2 ≠ 0 → isInt32 (m.hiResAccH + p.2)) ∧
      noOverflow fd (sendWheelHiRes m fd p.1 p.2).1 rest))

instance (fd : Int) (m : Mouse) (l : List (Int × Int)) : Decidable (noOverflow fd m l) :=
  noOverflow.dec fd m l

/-- One axis of the hi-res scroll converter in exact integer arithmetic:
starting from the remainder `acc`, each nonzero value is added, the quotient
of the truncating division by 120 is the legacy tick value of the call and
the remainder is kept. Returns the final remainder and the sum of the tick
values. -/
def axisSpec (acc : Int) : List Int → Int × Int
  | [] => (acc, 0)
  | v :: rest =>
    let a := if v = 0 then acc else (acc + v).tmod 120
    let t := if v = 0 then 0 else (acc + v).tdiv 120
    let r := axisSpec a rest
    (r.1, t + r.2)

/-- Whether the event is an X or Y coordinate event of the multitouch
protocol. -/
def InputEvent.isCoordinate (e : InputEvent) : Prop :=
  e.type = EV_ABS ∧ (e.code = ABS_MT_POSITION_X ∨ e.code = ABS_MT_POSITION_Y)

instance (e : InputEvent) : Decidable e.isCoordinate := by
  unfold InputEvent.isCoordinate; infer_instance

/-- The number of sync reports among the events. -/
def syncReports (evs : List InputEvent) : Nat :=
  evs.countP fun e => e.isSyncReport

/-- The events that release slots 0..n-1: for each slot in order, the
slot-select followed by trackingId -1. -/
def releaseEvents (n : Nat) : List InputEvent :=
  (List.range n).flatMap fun i =>
    [⟨EV_ABS, ABS_MT_SLOT, (i : Int)⟩, ⟨EV_ABS, ABS_MT_TRACKING_ID, -1⟩]

/-- Two dispatcher states that agree on everything the event handler reads:
the callback object, the slot table, the selected slot, the key count and the
buffered key events (the entries of the key arrays past the count may
differ). -/
def Dispatcher.agree (a b : Dispatcher) : Prop :=
  a.g_callback_obj = b.g_callback_obj ∧ a.slots = b.slots ∧
  a.current_slot = b.current_slot ∧ a.frame_key_count = b.frame_key_count ∧
  a.buffered = b.buffered

/-! ## evdev_grab.c -/

/-- The value of `SCM_RIGHTS` in `sys/socket.h`. -/
def SCM_RIGHTS : Int := 1

/-- The value of `SOL_SOCKET` in `sys/socket.h`. -/
def SOL_SOCKET : Int := 1

/-- What the platform headers fix for the control-message macros:
`size_modulus` is 2 to the width of `size_t`, `cmsg_len0` is `CMSG_LEN(0)`,
the length of a control message that carries no data. -/
structure Abi where
  size_modulus : Nat
  cmsg_len0 : Nat
deriving DecidableEq, Repr

/-- The 64-bit ABI: `size_t` has 64 bits and `CMSG_LEN(0)` is 16. -/
def abi64 : Abi := { size_modulus := 18446744073709551616, cmsg_len0 := 16 }

/-- A control message header as `recvmsg` leaves it in the control buffer,
with the `int`s that follow it at `CMSG_DATA`. The buffer comes from
`calloc`, so an `int` the kernel did not write reads 0. -/
structure Cmsghdr where
  cmsg_len : Nat
  cmsg_level : Int
  cmsg_type : Int
  data : List Int
deriving DecidableEq, Repr

/-- What the environment gives `receiveFdsFromHelper`: the return value of
`accept`, whether `calloc` gave a buffer, the return value of `recvmsg`, and
the result of `CMSG_FIRSTHDR(&msg)` (`none` for NULL). -/
structure HandoffEnv where
  accept : Int
  calloc_ok : Bool
  nrecv : Int
  first_hdr : Option Cmsghdr
deriving DecidableEq, Repr

/-- The expression `(int)((cmsg->cmsg_len - CMSG_LEN(0)) / sizeof(int))`:
the subtraction is in `size_t`, the cast keeps the low 32 bits. -/
def nfdsOf (abi : Abi) (cmsg_len : Nat) : Int :=
  wrap32 ((((cmsg_len + abi.size_modulus - abi.cmsg_len0 % abi.size_modulus) %
    abi.size_modulus) / 4 : Nat) : Int)

/-- The function `receiveFdsFromHelper`: `none` is the NULL result, `some`
the elements of the `jintArray` of length 2 returned (`NewIntArray` is taken
to succeed). -/
def receiveFdsFromHelper (abi : Abi) (env : HandoffEnv) : Option (List Int) :=
  if env.accept < 0 then none
  else if env.calloc_ok = false then none
  else if env.nrecv < 0 then none
  else
    match env.first_hdr with
    | none => none
    | some cmsg =>
      if cmsg.cmsg_type ≠ SCM_RIGHTS then none
      else
        let nfds := nfdsOf abi cmsg.cmsg_len
        let fd0 := if nfds ≥ 1 then cmsg.data.getD 0 0 else -1
        let fd1 := if nfds ≥ 2 then cmsg.data.getD 1 0 else -1
        some [fd0, fd1]

/-- A control message as the kernel writes it for descriptor passing on this
ABI: its length is `CMSG_LEN` of the `int`s it carries, and it carries at most
the two `int`s the control buffer of `receiveFdsFromHelper` has room for. -/
def Cmsghdr.carries (abi : Abi) (cmsg : Cmsghdr) : Prop :=
  cmsg.cmsg_len = abi.cmsg_len0 + 4 * cmsg.data.length ∧ cmsg.data.length ≤ 2

instance (abi : Abi) (cmsg : Cmsghdr) : Decidable (cmsg.carries abi) := by
  unfold Cmsghdr.carries; infer_instance

/-- An ABI on which `CMSG_LEN` of two `int`s is representable in `size_t`. -/
def Abi.sane (abi : Abi) : Prop :=
  abi.cmsg_len0 + 8 < abi.size_modulus

instance (abi : Abi) : Decidable abi.sane := by
  unfold Abi.sane; infer_instance

/-! ## root_helper.c -/

/-- What the environment gives one run of the helper: `argc`, the return
values of the two `open` calls on the device (the read-only one is made only
when the read-write one fails), of the grab `ioctl`, of the `open` of
`/dev/uinput`, of `socket`, of the successive `connect` calls (numbered from
0), and of `sendmsg`. -/
structure HelperEnv where
  argc : Int
  open_rdwr : Int
  open_rdonly : Int
  ioctl_grab : Int
  open_uinput : Int
  socket : Int
  connect : Nat → Int
  sendmsg : Int

/-- What a run of the helper does that can be seen from outside: its exit
status, the number of `connect` calls made, and the descriptors handed to
`send_fds` (`none` when it is not reached). -/
structure HelperRun where
  status : Int
  connects : Nat
  sent : Option (List Int)
deriving DecidableEq, Repr

/-- The loop `while (retries-- > 0) { if (connect(...) == 0) break; usleep(...); }`
entered with `retries` equal to the first argument (it is never negative at
the test) and `i` calls of `connect` made so far. Returns the value of
`retries` after the loop and the number of `connect` calls made. -/
def connectLoop (connect : Nat → Int) : Nat → Nat → Int × Nat
  | 0, i => (-1, i)
  | r + 1, i =>
    if connect i = 0 then ((r : Int), i + 1) else connectLoop connect r (i + 1)

/-- The function `main` of root_helper.c. -/
def main (env : HelperEnv) : HelperRun :=
  if env.argc < 3 then ⟨1, 0, none⟩
  else
    let evdev_fd := if env.open_rdwr < 0 then env.open_rdonly else env.open_rdwr
    if evdev_fd < 0 then ⟨2, 0, none⟩
    else
      let uinput_fd := if env.open_uinput < 0 then -1 else env.open_uinput
      if env.socket < 0 then ⟨3, 0, none⟩
      else
        let r := connectLoop env.connect 20 0
        if r.1 < 0 then ⟨4, r.2, none⟩
        else ⟨0, r.2, some [evdev_fd, if uinput_fd ≥ 0 then uinput_fd else evdev_fd]⟩

/-- A run of the helper with two arguments in which every call succeeds, the
receiver starts listening late: `connect` fails 19 times and succeeds on the
20th attempt. -/
def helperEnvLate : HelperEnv :=
  { argc := 3
    open_rdwr := 3
    open_rdonly := -1
    ioctl_grab := 0
    open_uinput := 4
    socket := 5
    connect := fun i => if i = 19 then 0 else -1
    sendmsg := 1 }

/-- The same run when the receiver never listens: every `connect` fails. -/
def helperEnvNever : HelperEnv :=
  { helperEnvLate with connect := fun _ => -1 }

/-- The process image of uinput_mouse.c at load: `mouse_fd` is -1 and both
accumulators are 0. -/
def loadedMouse : Mouse := ⟨-1, 0, 0⟩

/-- One pass of the loop in which the descriptor is readable and `read`
returns the events `evs`, 24 bytes each (the size of `struct input_event` on
the 64-bit ABI). -/
def readPass (evs : List InputEvent) : Iteration :=
  { g_running := true
    poll := { ret := 1, errno := 0, revents := POLLIN }
    read := { nread := 24 * evs.length, errno := 0, evbuf := evs } }

/-- The selected slot addresses an entry of the slot table. -/
def Dispatcher.slotInRange (st : Dispatcher) : Prop :=
  st.slots.length = MAX_SLOTS ∧ 0 ≤ st.current_slot ∧ st.current_slot < MAX_SLOTS

instance (st : Dispatcher) : Decidable st.slotInRange := by
  unfold Dispatcher.slotInRange; infer_instance

/-! ## The callback object changing while the loop runs -/

/-- The function `setCallback(callback)` of touchpad_bridge.c, on whether the
references are NULL: a global reference held is deleted and cleared; for a
NULL argument (`callback = false`) that is all, otherwise a new global
reference is stored (`NewGlobalRef` is taken to succeed). -/
def setCallback (st : Dispatcher) (callback : Bool) : Dispatcher :=
  let st1 := if st.g_callback_obj = true then { st with g_callback_obj := false } else st
  if callback = false then st1 else { st1 with g_callback_obj := true }

/-- What happens to the dispatcher state, in the order it happens: the
event loop handles an input event, or the application calls `setCallback`
between two events. -/
inductive Step where
  | event (e : InputEvent)
  | setCallback (callback : Bool)
deriving DecidableEq, Repr

/-- One step: the handling of the event, or the `setCallback` call, which
delivers nothing. -/
def handleStep (st : Dispatcher) : Step → Dispatcher × List Callback
  | .event e => handleEvent st e
  | .setCallback callback => (BetterTouchpad.setCallback st callback, [])

/-- A sequence of steps, with the callbacks made on the way in call order. -/
def processSteps (st : Dispatcher) : List Step → Dispatcher × List Callback
  | [] => (st, [])
  | s :: rest =>
    let r1 := handleStep st s
    let r2 := processSteps r1.1 rest
    (r2.1, r1.2 ++ r2.2)

/-- The input events among the steps, in order. -/
def stepEvents : List Step → List InputEvent
  | [] => []
  | .event e :: rest => e :: stepEvents rest
  | .setCallback _ :: rest => stepEvents rest

/-! ## Lemmas on the event handler -/

theorem processEvents_append (st : Dispatcher) (a b : List InputEvent) :
    processEvents st (a ++ b) =
      ((processEvents (processEvents st a).1 b).1,
        (processEvents st a).2 ++ (processEvents (processEvents st a).1 b).2) := by
  induction a generalizing st with
  | nil => simp [processEvents]
  | cons e rest ih => simp [processEvents, ih, List.append_assoc]

theorem readSlot_writeSlot (slots : List SlotState) (i : Int) (f : SlotState → SlotState)
    (s : Nat) (hi0 : 0 ≤ i) (hi : i < slots.length) :
    readSlot (writeSlot slots i f) s = if i = (s : Int) then f (readSlot slots s) else readSlot slots s := by
  unfold writeSlot readSlot
  rw [if_pos hi0]
  have hlt : i.toNat < slots.length := by omega
  by_cases hs : i = (s : Int)
  · subst hs
    simp [List.getElem?_set, hlt]
    simp at hlt
    simp [hlt]
  · have hne : i.toNat ≠ s := by omega
    simp [List.getElem?_set_ne hne, hs]

theorem handleEvent_slot (st : Dispatcher) (e : InputEvent) (ht : e.type = EV_ABS)
    (hc : e.code = ABS_MT_SLOT) :
    handleEvent st e = ({ st with current_slot := selectedAfter st.current_slot e }, []) := by
  have : (if (if e.value < 0 then 0 else e.value) ≥ ((MAX_SLOTS : Nat) : Int) then
      ((MAX_SLOTS : Nat) : Int) - 1 else if e.value < 0 then 0 else e.value) =
      selectedAfter st.current_slot e := by
    have hsel : selectedAfter st.current_slot e =
        (if e.value < 0 then 0 else if e.value ≥ 10 then 9 else e.value) := by
      unfold selectedAfter
      rw [if_pos ⟨ht, hc⟩]
    rw [hsel]
    simp only [MAX_SLOTS]
    split_ifs <;> first | rfl | omega
  simp only [handleEvent, ht, hc, if_true, this]

theorem handleEvent_tracking_id (st : Dispatcher) (e : InputEvent) (ht : e.type = EV_ABS)
    (hc : e.code = ABS_MT_TRACKING_ID) :
    handleEvent st e = ({ st with slots := writeSlot st.slots st.current_slot fun s =>
      { s with tracking_id := e.value, active := if e.value ≠ -1 then 1 else 0 } }, []) := by
  simp [handleEvent, ht, hc, ABS_MT_TRACKING_ID, ABS_MT_SLOT]

theorem handleEvent_position_x (st : Dispatcher) (e : InputEvent) (ht : e.type = EV_ABS)
    (hc : e.code = ABS_MT_POSITION_X) :
    handleEvent st e =
      ({ st with slots := writeSlot st.slots st.current_slot fun s => { s with x := e.value } },
        []) := by
  simp [handleEvent, ht, hc, ABS_MT_TRACKING_ID, ABS_MT_SLOT, ABS_MT_POSITION_X]

theorem handleEvent_position_y (st : Dispatcher) (e : InputEvent) (ht : e.type = EV_ABS)
    (hc : e.code = ABS_MT_POSITION_Y) :
    handleEvent st e =
      ({ st with slots := writeSlot st.slots st.current_slot fun s => { s with y := e.value } },
        []) := by
  simp [handleEvent, ht, hc, ABS_MT_TRACKING_ID, ABS_MT_SLOT, ABS_MT_POSITION_X,
    ABS_MT_POSITION_Y]

theorem handleEvent_abs_other (st : Dispatcher) (e : InputEvent) (ht : e.type = EV_ABS)
    (h1 : e.code ≠ ABS_MT_SLOT) (h2 : e.code ≠ ABS_MT_TRACKING_ID)
    (h3 : e.code ≠ ABS_MT_POSITION_X) (h4 : e.code ≠ ABS_MT_POSITION_Y) :
    handleEvent st e = (st, []) := by
  simp [handleEvent, ht, h1, h2, h3, h4]

theorem handleEvent_key (st : Dispatcher) (e : InputEvent) (ht : e.type = EV_KEY) :
    handleEvent st e =
      if st.frame_key_count < KEY_CAPACITY then
        ({ st with
            frame_key_codes := st.frame_key_codes.set st.frame_key_count e.code
            frame_key_vals := st.frame_key_vals.set st.frame_key_count e.value
            frame_key_count := st.frame_key_count + 1 }, [])
      else (st, []) := by
  simp [handleEvent, ht, EV_KEY, EV_ABS]

theorem handleEvent_syn_report (st : Dispatcher) (e : InputEvent) (h : e.isSyncReport) :
    handleEvent st e = dispatch_frame st := by
  obtain ⟨ht, hc⟩ := h
  simp [handleEvent, ht, hc, EV_KEY, EV_ABS, EV_SYN]

theorem handleEvent_syn_dropped (st : Dispatcher) (e : InputEvent) (h : e.isSyncDropped) :
    handleEvent st e =
      ({ st with
          slots := zeroedSlots.map fun s => { s with tracking_id := -1 }
          frame_key_count := 0 }, []) := by
  obtain ⟨ht, hc⟩ := h
  simp [handleEvent, ht, hc, EV_KEY, EV_ABS, EV_SYN, SYN_REPORT, SYN_DROPPED]

theorem handleEvent_other (st : Dispatcher) (e : InputEvent) (h1 : e.type ≠ EV_ABS)
    (h2 : e.type ≠ EV_KEY) (h3 : ¬ e.isSyncReport) (h4 : ¬ e.isSyncDropped) :
    handleEvent st e = (st, []) := by
  unfold InputEvent.isSyncReport at h3
  unfold InputEvent.isSyncDropped at h4
  unfold handleEvent
  rw [if_neg h1, if_neg h2]
  split_ifs <;> first | rfl | (exfalso; tauto)

theorem handleEvent_current_slot (st : Dispatcher) (e : InputEvent) :
    (handleEvent st e).1.current_slot = selectedAfter st.current_slot e := by
  by_cases ht : e.type = EV_ABS
  · by_cases hS : e.code = ABS_MT_SLOT
    · rw [handleEvent_slot st e ht hS]
    · have : selectedAfter st.current_slot e = st.current_slot := by simp [selectedAfter, hS]
      rw [this]
      unfold handleEvent
      rw [if_pos ht, if_neg hS]
      split_ifs <;> rfl
  · have : selectedAfter st.current_slot e = st.current_slot := by simp [selectedAfter, ht]
    rw [this]
    unfold handleEvent dispatch_frame
    rw [if_neg ht]
    split_ifs <;> rfl

theorem handleEvent_field (st : Dispatcher) (e : InputEvent) (hwf : st.WF)
    (h1 : ¬ e.isSyncReport) (h2 : ¬ e.isSyncDropped) (fld : Field) (s : Nat) :
    (readSlot (handleEvent st e).1.slots s).field fld =
      ((if st.current_slot = (s : Int) then written fld e else none).getD
        ((readSlot st.slots s).field fld)) := by
  obtain ⟨hl, hc0, hc1, -⟩ := hwf
  have hc : st.current_slot < (st.slots.length : Int) := by rw [hl]; exact hc1
  by_cases ht : e.type = EV_ABS
  · by_cases hS : e.code = ABS_MT_SLOT
    · rw [handleEvent_slot st e ht hS]
      cases fld <;>
        simp [written, ht, hS, ABS_MT_SLOT, ABS_MT_TRACKING_ID, ABS_MT_POSITION_X,
          ABS_MT_POSITION_Y]
    · by_cases hT : e.code = ABS_MT_TRACKING_ID
      · rw [handleEvent_tracking_id st e ht hT]
        simp only [readSlot_writeSlot _ _ _ _ hc0 hc]
        by_cases hcs : st.current_slot = (s : Int) <;>
          cases fld <;>
            simp [written, ht, hT, hcs, SlotState.field, ABS_MT_TRACKING_ID, ABS_MT_POSITION_X,
              ABS_MT_POSITION_Y]
      · by_cases hX : e.code = ABS_MT_POSITION_X
        · rw [handleEvent_position_x st e ht hX]
          simp only [readSlot_writeSlot _ _ _ _ hc0 hc]
          by_cases hcs : st.current_slot = (s : Int) <;>
            cases fld <;>
              simp [written, ht, hX, hcs, SlotState.field, ABS_MT_TRACKING_ID,
                ABS_MT_POSITION_X, ABS_MT_POSITION_Y]
        · by_cases hY : e.code = ABS_MT_POSITION_Y
          · rw [handleEvent_position_y st e ht hY]
            simp only [readSlot_writeSlot _ _ _ _ hc0 hc]
            by_cases hcs : st.current_slot = (s : Int) <;>
              cases fld <;>
                simp [written, ht, hY, hcs, SlotState.field, ABS_MT_TRACKING_ID,
                  ABS_MT_POSITION_X, ABS_MT_POSITION_Y]
          · rw [handleEvent_abs_other st e ht hS hT hX hY]
            cases fld <;> simp [written, ht, hT, hX, hY]
  · have hw : written fld e = none := by simp [written, ht]
    have hs : (handleEvent st e).1.slots = st.slots := by
      by_cases hk : e.type = EV_KEY
      · rw [handleEvent_key st e hk]; split_ifs <;> rfl
      · rw [handleEvent_other st e ht hk h1 h2]
    rw [hs, hw]; simp

theorem length_writeSlot (slots : List SlotState) (i : Int) (f : SlotState → SlotState) :
    (writeSlot slots i f).length = slots.length := by
  unfold writeSlot
  split_ifs <;> simp

theorem handleEvent_out_nil (st : Dispatcher) (e : InputEvent) (h : ¬ e.isSyncReport) :
    (handleEvent st e).2 = [] := by
  unfold InputEvent.isSyncReport at h
  unfold handleEvent
  split_ifs <;> first | rfl | (exfalso; tauto)

theorem handleEvent_callback (st : Dispatcher) (e : InputEvent) :
    (handleEvent st e).1.g_callback_obj = st.g_callback_obj := by
  unfold handleEvent dispatch_frame
  split_ifs <;> rfl

theorem handleEvent_WF (st : Dispatcher) (e : InputEvent) (h : st.WF) :
    (handleEvent st e).1.WF := by
  obtain ⟨h1, h2, h3, h4, h5, h6⟩ := h
  have hsel : 0 ≤ selectedAfter st.current_slot e ∧
      selectedAfter st.current_slot e < (MAX_SLOTS : Int) := by
    unfold selectedAfter
    simp only [MAX_SLOTS] at *
    split_ifs <;> omega
  refine ⟨?_, ?_, ?_, ?_, ?_, ?_⟩
  · unfold handleEvent dispatch_frame
    split_ifs <;> simp [length_writeSlot, zeroedSlots, h1]
  · rw [handleEvent_current_slot]; exact hsel.1
  · rw [handleEvent_current_slot]; exact hsel.2
  · unfold handleEvent dispatch_frame
    split_ifs <;> simp [h4]
  · unfold handleEvent dispatch_frame
    split_ifs <;> simp [h5]
  · unfold handleEvent dispatch_frame
    simp only [KEY_CAPACITY] at *
    split_ifs <;> simp <;> omega

theorem processEvents_WF (st : Dispatcher) (evs : List InputEvent) (h : st.WF) :
    (processEvents st evs).1.WF := by
  induction evs generalizing st with
  | nil => exact h
  | cons e rest ih => exact ih _ (handleEvent_WF st e h)

theorem processEvents_callback (st : Dispatcher) (evs : List InputEvent) :
    (processEvents st evs).1.g_callback_obj = st.g_callback_obj := by
  induction evs generalizing st with
  | nil => rfl
  | cons e rest ih =>
    show (processEvents (handleEvent st e).1 rest).1.g_callback_obj = _
    rw [ih, handleEvent_callback]

theorem processEvents_out_nil (st : Dispatcher) (evs : List InputEvent)
    (h : ∀ e ∈ evs, ¬ e.isSyncReport) : (processEvents st evs).2 = [] := by
  induction evs generalizing st with
  | nil => rfl
  | cons e rest ih =>
    show (handleEvent st e).2 ++ (processEvents (handleEvent st e).1 rest).2 = []
    rw [handleEvent_out_nil st e (h e (List.mem_cons_self _ _)),
      ih _ (fun x hx => h x (List.mem_cons_of_mem _ hx))]
    rfl

theorem lastWrite_cons (fld : Field) (s : Nat) (cur : Int) (e : InputEvent)
    (rest : List InputEvent) :
    lastWrite fld s cur (e :: rest) =
      match lastWrite fld s (selectedAfter cur e) rest with
      | some v => some v
      | none => if cur = (s : Int) then written fld e else none := rfl

theorem processEvents_field (st : Dispatcher) (hwf : st.WF) (run : List InputEvent)
    (hrun : ∀ e ∈ run, ¬ e.isSyncReport ∧ ¬ e.isSyncDropped) (fld : Field) (s : Nat) :
    (readSlot (processEvents st run).1.slots s).field fld =
      (lastWrite fld s st.current_slot run).getD ((readSlot st.slots s).field fld) := by
  induction run generalizing st with
  | nil => rfl
  | cons e rest ih =>
    have he := hrun e (List.mem_cons_self _ _)
    have hrest : ∀ x ∈ rest, ¬ x.isSyncReport ∧ ¬ x.isSyncDropped :=
      fun x hx => hrun x (List.mem_cons_of_mem _ hx)
    show (readSlot (processEvents (handleEvent st e).1 rest).1.slots s).field fld = _
    rw [ih _ (handleEvent_WF st e hwf) hrest, handleEvent_current_slot,
      handleEvent_field st e hwf he.1 he.2]
    rw [lastWrite_cons]
    cases hlw : lastWrite fld s (selectedAfter st.current_slot e) rest with
    | none => simp
    | some v => simp

/-! ## The frame delivered at a sync report -/

theorem snapshot_field (st : Dispatcher) (fld : Field) (s : Nat) (hs : s < MAX_SLOTS) :
    st.snapshot.field fld s = (readSlot st.slots s).field fld := by
  cases fld <;>
    simp [Dispatcher.snapshot, Frame.field, SlotState.field, List.getElem?_range hs]

theorem dispatch_frame_eq (st : Dispatcher) :
    dispatch_frame st =
      if st.g_callback_obj = false then (st, [])
      else ({ st with frame_key_count := 0 },
        keyCalls st.buffered ++ [Callback.onFrame st.snapshot]) := by
  unfold dispatch_frame keyCalls Dispatcher.buffered Dispatcher.snapshot
  split_ifs
  · rfl
  · simp

theorem snapshot_lengths (st : Dispatcher) :
    st.snapshot.count = 10 ∧ st.snapshot.slot_active.length = 10 ∧
    st.snapshot.tracking_ids.length = 10 ∧ st.snapshot.xs.length = 10 ∧
    st.snapshot.ys.length = 10 := by
  simp [Dispatcher.snapshot, MAX_SLOTS]

theorem handleEvent_syn_report_out (st : Dispatcher) (e : InputEvent) (h : e.isSyncReport) :
    (handleEvent st e).2 =
      if st.g_callback_obj = false then []
      else keyCalls st.buffered ++ [Callback.onFrame st.snapshot] := by
  rw [handleEvent_syn_report st e h, dispatch_frame_eq]
  split_ifs <;> rfl

theorem mem_keyCalls_ne_onFrame (ks : List (Int × Int)) (f : Frame) :
    Callback.onFrame f ∉ keyCalls ks := by
  simp [keyCalls]

/-- C1: for every dispatcher state and every run of events holding no sync
report and no sync dropped, a frame delivered at the sync report that ends the
run has 10 entries per array and reports, for each of the 10 slots and each
field (trackingId, active, x, y), the value of the last event of the run that
wrote that field of that slot, and the value the state held at the start of
the run when no event wrote it; when a callback object is set that frame is
delivered, as the one call after the key calls. Right after the
initialisation of startEventLoop, slot-select 0, trackingId 42, X 100, Y 200,
sync report delivers one call, the frame with slot 0 = (active, 42, 100, 200)
and every other slot inactive with trackingId -1, and no key event. -/
theorem frame_reflects_last_writes (st : Dispatcher) (hwf : st.WF) (run : List InputEvent)
    (hrun : ∀ e ∈ run, ¬ e.isSyncReport ∧ ¬ e.isSyncDropped)
    (sync : InputEvent) (hsync : sync.isSyncReport) :
    (∀ f, Callback.onFrame f ∈ (processEvents st (run ++ [sync])).2 →
      (f.count = 10 ∧ f.slot_active.length = 10 ∧ f.tracking_ids.length = 10 ∧
        f.xs.length = 10 ∧ f.ys.length = 10) ∧
      ∀ fld s, s < 10 →
        f.field fld s =
          (lastWrite fld s st.current_slot run).getD ((readSlot st.slots s).field fld)) ∧
    (st.g_callback_obj = true →
      ∃ ks f, (processEvents st (run ++ [sync])).2 = keyCalls ks ++ [Callback.onFrame f]) ∧
    (∀ g : Dispatcher, g.g_callback_obj = true →
      (processEvents (startState g)
        [⟨EV_ABS, ABS_MT_SLOT, 0⟩, ⟨EV_ABS, ABS_MT_TRACKING_ID, 42⟩,
          ⟨EV_ABS, ABS_MT_POSITION_X, 100⟩, ⟨EV_ABS, ABS_MT_POSITION_Y, 200⟩,
          ⟨EV_SYN, SYN_REPORT, 0⟩]).2 =
        [Callback.onFrame
          { slot_active := [1, 0, 0, 0, 0, 0, 0, 0, 0, 0]
            tracking_ids := [42, -1, -1, -1, -1, -1, -1, -1, -1, -1]
            xs := [100, 0, 0, 0, 0, 0, 0, 0, 0, 0]
            ys := [200, 0, 0, 0, 0, 0, 0, 0, 0, 0]
            count := 10 }]) := by
  have hnil : (processEvents st run).2 = [] :=
    processEvents_out_nil st run fun e he => (hrun e he).1
  have hout : (processEvents st (run ++ [sync])).2 =
      if (processEvents st run).1.g_callback_obj = false then []
      else keyCalls (processEvents st run).1.buffered ++
        [Callback.onFrame (processEvents st run).1.snapshot] := by
    rw [processEvents_append, hnil]
    show [] ++ ((handleEvent (processEvents st run).1 sync).2 ++ []) = _
    rw [handleEvent_syn_report_out _ _ hsync]
    simp
  refine ⟨?_, ?_, ?_⟩
  · intro f hf
    rw [hout] at hf
    split_ifs at hf with hcb
    · simp at hf
    · rw [List.mem_append] at hf
      rcases hf with hf | hf
      · exact absurd hf (mem_keyCalls_ne_onFrame _ _)
      · simp only [List.mem_singleton, Callback.onFrame.injEq] at hf
        subst hf
        refine ⟨snapshot_lengths _, ?_⟩
        intro fld s hs
        rw [snapshot_field _ _ _ hs, processEvents_field st hwf run hrun]
  · intro hcb
    rw [hout, processEvents_callback, hcb]
    exact ⟨_, _, rfl⟩
  · intro g hg
    simp [processEvents, handleEvent, dispatch_frame, startState, hg, EV_ABS, EV_SYN, EV_KEY,
      ABS_MT_SLOT, ABS_MT_TRACKING_ID, ABS_MT_POSITION_X, ABS_MT_POSITION_Y, SYN_REPORT,
      MAX_SLOTS, writeSlot, readSlot, zeroedSlots, List.range, List.range.loop, List.replicate]

/-- A concrete instance: the scenario run from the initialised state, for
field x of slot 0. -/
theorem frame_reflects_last_writes_witness :
    (startState bootGlobals).WF ∧
    (∀ e ∈ scenarioRun, ¬ e.isSyncReport ∧ ¬ e.isSyncDropped) ∧
    InputEvent.isSyncReport ⟨EV_SYN, SYN_REPORT, 0⟩ ∧
    (∀ f, Callback.onFrame f ∈
        (processEvents (startState bootGlobals) (scenarioRun ++ [⟨EV_SYN, SYN_REPORT, 0⟩])).2 →
      f.field Field.x 0 =
        (lastWrite Field.x 0 (startState bootGlobals).current_slot scenarioRun).getD
          ((readSlot (startState bootGlobals).slots 0).field Field.x)) :=
  ⟨by decide, by decide, by decide, fun f hf =>
    ((frame_reflects_last_writes (startState bootGlobals) (by decide) scenarioRun (by decide)
      ⟨EV_SYN, SYN_REPORT, 0⟩ (by decide)).1 f hf).2 Field.x 0 (by decide)⟩

/-! ## The key buffer -/

theorem buffered_length (st : Dispatcher) : st.buffered.length = st.frame_key_count := by
  simp [Dispatcher.buffered]

theorem buffered_of_count_zero (st : Dispatcher) (h : st.frame_key_count = 0) :
    st.buffered = [] := by
  simp [Dispatcher.buffered, h]

theorem handleEvent_key_buffered (st : Dispatcher) (e : InputEvent) (hwf : st.WF)
    (ht : e.type = EV_KEY) :
    (handleEvent st e).1.buffered =
      if st.frame_key_count < KEY_CAPACITY then st.buffered ++ [((e.code : Int), e.value)]
      else st.buffered := by
  obtain ⟨-, -, -, h4, h5, h6⟩ := hwf
  rw [handleEvent_key st e ht]
  split_ifs with hlt
  · simp only [Dispatcher.buffered, List.range_succ, List.map_append, List.map_cons,
      List.map_nil]
    congr 1
    · apply List.map_congr_left
      intro k hk
      have hk' : k < st.frame_key_count := List.mem_range.mp hk
      have hne : st.frame_key_count ≠ k := by omega
      simp [List.getElem?_set_ne hne]
    · have h1 : st.frame_key_count < st.frame_key_codes.length := by rw [h4]; exact hlt
      have h2 : st.frame_key_count < st.frame_key_vals.length := by rw [h5]; exact hlt
      simp [List.getElem?_set, h1, h2]
  · rfl

theorem take_take_append {α : Type} (n : Nat) (l m : List α) :
    ((l.take n) ++ m).take n = (l ++ m).take n := by
  by_cases h : n ≤ l.length
  · rw [List.take_append_of_le_length (by simp [h]), List.take_append_of_le_length h,
      List.take_take, min_self]
  · have h' : l.length ≤ n := by omega
    rw [List.take_of_length_le h']

theorem handleEvent_buffered (st : Dispatcher) (e : InputEvent) (hwf : st.WF)
    (h1 : ¬ e.isSyncReport) (h2 : ¬ e.isSyncDropped) :
    (handleEvent st e).1.buffered = (st.buffered ++ keyEvents [e]).take KEY_CAPACITY := by
  have hlen := buffered_length st
  have hle : st.frame_key_count ≤ KEY_CAPACITY := hwf.2.2.2.2.2
  by_cases hk : e.type = EV_KEY
  · rw [handleEvent_key_buffered st e hwf hk]
    have hke : keyEvents [e] = [((e.code : Int), e.value)] := by simp [keyEvents, hk]
    rw [hke]
    split_ifs with hlt
    · rw [List.take_of_length_le]
      simp only [List.length_append, List.length_singleton, hlen]
      omega
    · have heq : st.buffered.length = KEY_CAPACITY := by omega
      rw [List.take_append_of_le_length (by omega), List.take_of_length_le (by omega)]
  · have hke : keyEvents [e] = [] := by simp [keyEvents, hk]
    have hs : (handleEvent st e).1.buffered = st.buffered := by
      by_cases ha : e.type = EV_ABS
      · unfold handleEvent
        rw [if_pos ha]
        split_ifs <;> rfl
      · rw [handleEvent_other st e ha hk h1 h2]
    rw [hs, hke, List.append_nil, List.take_of_length_le (by omega)]

theorem keyEvents_cons (e : InputEvent) (rest : List InputEvent) :
    keyEvents (e :: rest) = keyEvents [e] ++ keyEvents rest := by
  simp only [keyEvents, ← List.map_append, ← List.filter_append]
  rfl

theorem processEvents_buffered (st : Dispatcher) (hwf : st.WF) (run : List InputEvent)
    (hrun : ∀ e ∈ run, ¬ e.isSyncReport ∧ ¬ e.isSyncDropped) :
    (processEvents st run).1.buffered = (st.buffered ++ keyEvents run).take KEY_CAPACITY := by
  induction run generalizing st with
  | nil =>
    have hlen := buffered_length st
    have hle : st.frame_key_count ≤ KEY_CAPACITY := hwf.2.2.2.2.2
    show st.buffered = _
    rw [show keyEvents [] = [] from rfl, List.append_nil, List.take_of_length_le (by omega)]
  | cons e rest ih =>
    have he := hrun e (List.mem_cons_self _ _)
    have hrest : ∀ x ∈ rest, ¬ x.isSyncReport ∧ ¬ x.isSyncDropped :=
      fun x hx => hrun x (List.mem_cons_of_mem _ hx)
    show (processEvents (handleEvent st e).1 rest).1.buffered = _
    rw [ih _ (handleEvent_WF st e hwf) hrest, handleEvent_buffered st e hwf he.1 he.2,
      take_take_append, List.append_assoc, ← keyEvents_cons]

theorem sync_report_after_run (st : Dispatcher) (hwf : st.WF) (run : List InputEvent)
    (hrun : ∀ e ∈ run, ¬ e.isSyncReport ∧ ¬ e.isSyncDropped)
    (sync : InputEvent) (hsync : sync.isSyncReport) :
    (handleEvent (processEvents st run).1 sync).2 =
      (if st.g_callback_obj = false then []
      else keyCalls ((st.buffered ++ keyEvents run).take KEY_CAPACITY) ++
        [Callback.onFrame (processEvents st run).1.snapshot]) ∧
    (st.g_callback_obj = true →
      (handleEvent (processEvents st run).1 sync).1.frame_key_count = 0) := by
  constructor
  · rw [handleEvent_syn_report_out _ _ hsync, processEvents_callback,
      processEvents_buffered st hwf run hrun]
  · intro hcb
    rw [handleEvent_syn_report _ _ hsync, dispatch_frame_eq, processEvents_callback, hcb]
    rfl

theorem boundary_count_zero (st : Dispatcher) (hcb : st.g_callback_obj = true)
    (prev : InputEvent) (hprev : prev.isSyncReport ∨ prev.isSyncDropped) :
    (handleEvent st prev).1.frame_key_count = 0 := by
  rcases hprev with h | h
  · rw [handleEvent_syn_report _ _ h, dispatch_frame_eq, hcb]; rfl
  · rw [handleEvent_syn_dropped _ _ h]

theorem setCallback_eq (st : Dispatcher) (callback : Bool) :
    setCallback st callback = { st with g_callback_obj := callback } := by
  unfold setCallback
  cases callback <;> cases h : st.g_callback_obj <;> simp [h]
  all_goals (cases st; simp_all)

theorem setCallback_WF (st : Dispatcher) (callback : Bool) (h : st.WF) :
    (setCallback st callback).WF := by
  rw [setCallback_eq]; exact h

theorem setCallback_buffered (st : Dispatcher) (callback : Bool) :
    (setCallback st callback).buffered = st.buffered := by
  rw [setCallback_eq]; rfl

theorem handleStep_WF (st : Dispatcher) (s : Step) (h : st.WF) : (handleStep st s).1.WF := by
  cases s with
  | event e => exact handleEvent_WF st e h
  | setCallback cb => exact setCallback_WF st cb h

theorem processSteps_WF (run : List Step) (st : Dispatcher) (h : st.WF) :
    (processSteps st run).1.WF := by
  induction run generalizing st with
  | nil => exact h
  | cons s rest ih => exact ih _ (handleStep_WF st s h)

theorem processSteps_events (evs : List InputEvent) (st : Dispatcher) :
    processSteps st (evs.map Step.event) = processEvents st evs := by
  induction evs generalizing st with
  | nil => rfl
  | cons e rest ih =>
    show ((processSteps (handleEvent st e).1 (rest.map Step.event)).1,
      (handleEvent st e).2 ++ (processSteps (handleEvent st e).1 (rest.map Step.event)).2) = _
    rw [ih]
    rfl

theorem processSteps_out_nil (run : List Step) (st : Dispatcher)
    (h : ∀ e ∈ stepEvents run, ¬ e.isSyncReport) : (processSteps st run).2 = [] := by
  induction run generalizing st with
  | nil => rfl
  | cons s rest ih =>
    cases s with
    | event e =>
      show (handleEvent st e).2 ++ (processSteps (handleEvent st e).1 rest).2 = []
      rw [handleEvent_out_nil st e (h e (List.mem_cons_self _ _)),
        ih _ (fun x hx => h x (List.mem_cons_of_mem _ hx))]
      rfl
    | setCallback cb =>
      show [] ++ (processSteps (setCallback st cb) rest).2 = []
      rw [ih _ (fun x hx => h x hx)]
      rfl

theorem processSteps_buffered (run : List Step) (st : Dispatcher) (hwf : st.WF)
    (hrun : ∀ e ∈ stepEvents run, ¬ e.isSyncReport ∧ ¬ e.isSyncDropped) :
    (processSteps st run).1.buffered =
      (st.buffered ++ keyEvents (stepEvents run)).take KEY_CAPACITY := by
  induction run generalizing st with
  | nil =>
    have hlen := buffered_length st
    have hle : st.frame_key_count ≤ KEY_CAPACITY := hwf.2.2.2.2.2
    show st.buffered = _
    rw [show keyEvents (stepEvents []) = [] from rfl, List.append_nil,
      List.take_of_length_le (by omega)]
  | cons s rest ih =>
    cases s with
    | event e =>
      have he := hrun e (List.mem_cons_self _ _)
      have hrest : ∀ x ∈ stepEvents rest, ¬ x.isSyncReport ∧ ¬ x.isSyncDropped :=
        fun x hx => hrun x (List.mem_cons_of_mem _ hx)
      show (processSteps (handleEvent st e).1 rest).1.buffered = _
      rw [ih _ (handleEvent_WF st e hwf) hrest, handleEvent_buffered st e hwf he.1 he.2,
        take_take_append, List.append_assoc]
      show _ = List.take KEY_CAPACITY (st.buffered ++ keyEvents (e :: stepEvents rest))
      rw [keyEvents_cons e (stepEvents rest)]
    | setCallback cb =>
      show (processSteps (setCallback st cb) rest).1.buffered = _
      rw [ih _ (setCallback_WF st cb hwf) (fun x hx => hrun x hx), setCallback_buffered]
      rfl

/-- A sync report handled after a run of steps that began with an empty key
buffer and ends with a callback object set. -/
theorem sync_report_after_steps (st : Dispatcher) (hwf : st.WF)
    (hcount : st.frame_key_count = 0) (run : List Step)
    (hrun : ∀ e ∈ stepEvents run, ¬ e.isSyncReport ∧ ¬ e.isSyncDropped)
    (hcb : (processSteps st run).1.g_callback_obj = true)
    (sync : InputEvent) (hsync : sync.isSyncReport) :
    (processSteps st run).2 = [] ∧
    (handleEvent (processSteps st run).1 sync).2 =
      keyCalls ((keyEvents (stepEvents run)).take 16) ++
        [Callback.onFrame (processSteps st run).1.snapshot] ∧
    (handleEvent (processSteps st run).1 sync).1.frame_key_count = 0 ∧
    (handleEvent (processSteps st run).1 sync).1.buffered = [] := by
  have hcnt : (handleEvent (processSteps st run).1 sync).1.frame_key_count = 0 := by
    rw [handleEvent_syn_report _ _ hsync, dispatch_frame_eq, hcb]
    rfl
  refine ⟨processSteps_out_nil run st (fun e he => (hrun e he).1), ?_, hcnt,
    buffered_of_count_zero _ hcnt⟩
  rw [handleEvent_syn_report_out _ _ hsync, hcb, processSteps_buffered run st hwf hrun,
    buffered_of_count_zero st hcount]
  simp [KEY_CAPACITY]

/-- C2 (amended): at every sync report handled while a callback object is
set, when what came last before it, among sync reports, sync droppeds and the
initialisation of startEventLoop, is the initialisation, a sync dropped, or
a sync report that was itself handled while a callback object was set, the
dispatcher delivers the key events received since then, in arrival order and
limited to the first 16 of them, all of them before the single frame of the
slot table, nothing being delivered in between, whatever setCallback calls
come between the events, and the key count is 0 once the sync report has
been handled. With no callback object set a sync report delivers nothing. -/
theorem keys_then_frame_with_callback (st : Dispatcher) (hwf : st.WF)
    (prev : InputEvent)
    (hprev : (prev.isSyncReport ∧ st.g_callback_obj = true) ∨ prev.isSyncDropped)
    (run : List Step) (hrun : ∀ e ∈ stepEvents run, ¬ e.isSyncReport ∧ ¬ e.isSyncDropped)
    (sync : InputEvent) (hsync : sync.isSyncReport) :
    ((processSteps (handleEvent st prev).1 run).1.g_callback_obj = true →
      (processSteps (handleEvent st prev).1 run).2 = [] ∧
      (handleEvent (processSteps (handleEvent st prev).1 run).1 sync).2 =
        keyCalls ((keyEvents (stepEvents run)).take 16) ++
          [Callback.onFrame (processSteps (handleEvent st prev).1 run).1.snapshot] ∧
      (handleEvent (processSteps (handleEvent st prev).1 run).1 sync).1.frame_key_count = 0 ∧
      (handleEvent (processSteps (handleEvent st prev).1 run).1 sync).1.buffered = []) ∧
    ((processSteps (startState st) run).1.g_callback_obj = true →
      (processSteps (startState st) run).2 = [] ∧
      (handleEvent (processSteps (startState st) run).1 sync).2 =
        keyCalls ((keyEvents (stepEvents run)).take 16) ++
          [Callback.onFrame (processSteps (startState st) run).1.snapshot] ∧
      (handleEvent (processSteps (startState st) run).1 sync).1.frame_key_count = 0 ∧
      (handleEvent (processSteps (startState st) run).1 sync).1.buffered = []) ∧
    (∀ st0 : Dispatcher, st0.g_callback_obj = false → (handleEvent st0 sync).2 = []) := by
  have hwf1 : (handleEvent st prev).1.WF := handleEvent_WF st prev hwf
  have hc1 : (handleEvent st prev).1.frame_key_count = 0 := by
    rcases hprev with ⟨h, hcb⟩ | h
    · rw [handleEvent_syn_report _ _ h, dispatch_frame_eq, hcb]; rfl
    · rw [handleEvent_syn_dropped _ _ h]
  have hwf2 : (startState st).WF := by
    obtain ⟨h1, h2, h3, h4, h5, h6⟩ := hwf
    exact ⟨by simp [startState, zeroedSlots], by simp [startState],
      by simp [startState, MAX_SLOTS], h4, h5, by simp [startState]⟩
  refine ⟨fun hcb => sync_report_after_steps _ hwf1 hc1 run hrun hcb sync hsync,
    fun hcb => sync_report_after_steps _ hwf2 rfl run hrun hcb sync hsync, ?_⟩
  intro st0 h0
  rw [handleEvent_syn_report_out _ _ hsync, if_pos h0]

/-- A concrete instance: from the initialised state with no callback object
set, a sync dropped, then BTN_LEFT down, a setCallback call with a callback
object, BTN_LEFT up, and the sync report. -/
theorem keys_then_frame_with_callback_witness :
    (startState bootGlobalsNoCallback).WF ∧
    ((InputEvent.isSyncReport ⟨EV_SYN, SYN_DROPPED, 0⟩ ∧
        (startState bootGlobalsNoCallback).g_callback_obj = true) ∨
      InputEvent.isSyncDropped ⟨EV_SYN, SYN_DROPPED, 0⟩) ∧
    (∀ e ∈ stepEvents [Step.event ⟨EV_KEY, 272, 1⟩, Step.setCallback true,
        Step.event ⟨EV_KEY, 272, 0⟩], ¬ e.isSyncReport ∧ ¬ e.isSyncDropped) ∧
    InputEvent.isSyncReport ⟨EV_SYN, SYN_REPORT, 0⟩ ∧
    (processSteps (handleEvent (startState bootGlobalsNoCallback) ⟨EV_SYN, SYN_DROPPED, 0⟩).1
      [Step.event ⟨EV_KEY, 272, 1⟩, Step.setCallback true,
        Step.event ⟨EV_KEY, 272, 0⟩]).1.g_callback_obj = true ∧
    (handleEvent
      (processSteps (handleEvent (startState bootGlobalsNoCallback) ⟨EV_SYN, SYN_DROPPED, 0⟩).1
        [Step.event ⟨EV_KEY, 272, 1⟩, Step.setCallback true,
          Step.event ⟨EV_KEY, 272, 0⟩]).1 ⟨EV_SYN, SYN_REPORT, 0⟩).2 =
      keyCalls ((keyEvents (stepEvents [Step.event ⟨EV_KEY, 272, 1⟩, Step.setCallback true,
        Step.event ⟨EV_KEY, 272, 0⟩])).take 16) ++
        [Callback.onFrame
          (processSteps
            (handleEvent (startState bootGlobalsNoCallback) ⟨EV_SYN, SYN_DROPPED, 0⟩).1
            [Step.event ⟨EV_KEY, 272, 1⟩, Step.setCallback true,
              Step.event ⟨EV_KEY, 272, 0⟩]).1.snapshot] ∧
    keyCalls ((keyEvents (stepEvents [Step.event ⟨EV_KEY, 272, 1⟩, Step.setCallback true,
      Step.event ⟨EV_KEY, 272, 0⟩])).take 16) =
      [Callback.onKeyEvent 272 1, Callback.onKeyEvent 272 0] :=
  ⟨by decide, by decide, by decide, by decide, by decide,
    ((keys_then_frame_with_callback (startState bootGlobalsNoCallback) (by decide)
      ⟨EV_SYN, SYN_DROPPED, 0⟩ (by decide)
      [Step.event ⟨EV_KEY, 272, 1⟩, Step.setCallback true, Step.event ⟨EV_KEY, 272, 0⟩]
      (by decide) ⟨EV_SYN, SYN_REPORT, 0⟩ (by decide)).1 (by decide)).2.1,
    by decide⟩

/-- C2 as stated fails when no callback object is set: after the
initialisation of startEventLoop, a key event (BTN_LEFT down) followed by a
sync report delivers nothing, where the claim has the key event and one
frame delivered, and leaves the key count at 1, where the claim has the key
buffer empty. It also fails at a sync report handled with a callback object
set when the previous sync report was not: after those two events, a
setCallback call with a callback object, a second key event (BTN_RIGHT down)
and a sync report deliver both key events, the first of which was received
before the previous sync report. -/
theorem keys_not_delivered_without_callback :
    (startState bootGlobalsNoCallback).WF ∧
    (processEvents (startState bootGlobalsNoCallback)
      [⟨EV_KEY, 272, 1⟩, ⟨EV_SYN, SYN_REPORT, 0⟩]).2 = [] ∧
    keyCalls ((keyEvents [⟨EV_KEY, 272, 1⟩]).take 16) = [Callback.onKeyEvent 272 1] ∧
    (processEvents (startState bootGlobalsNoCallback)
      [⟨EV_KEY, 272, 1⟩, ⟨EV_SYN, SYN_REPORT, 0⟩]).1.frame_key_count = 1 ∧
    (processEvents (startState bootGlobalsNoCallback)
      [⟨EV_KEY, 272, 1⟩, ⟨EV_SYN, SYN_REPORT, 0⟩]).1.buffered = [(272, 1)] ∧
    (processSteps (startState bootGlobalsNoCallback)
      [Step.event ⟨EV_KEY, 272, 1⟩, Step.event ⟨EV_SYN, SYN_REPORT, 0⟩,
        Step.setCallback true, Step.event ⟨EV_KEY, 273, 1⟩,
        Step.event ⟨EV_SYN, SYN_REPORT, 0⟩]).2 =
      [Callback.onKeyEvent 272 1, Callback.onKeyEvent 273 1,
        Callback.onFrame
          { slot_active := [0, 0, 0, 0, 0, 0, 0, 0, 0, 0]
            tracking_ids := [-1, -1, -1, -1, -1, -1, -1, -1, -1, -1]
            xs := [0, 0, 0, 0, 0, 0, 0, 0, 0, 0]
            ys := [0, 0, 0, 0, 0, 0, 0, 0, 0, 0]
            count := 10 }] ∧
    keyCalls ((keyEvents [⟨EV_KEY, 273, 1⟩]).take 16) = [Callback.onKeyEvent 273 1] := by
  decide

/-! ## Sync dropped -/

theorem written_of_not_axisWrite (fld : Field) (e : InputEvent) (h : e.isAxisWrite = false) :
    written fld e = none := by
  unfold InputEvent.isAxisWrite at h
  simp only [decide_eq_false_iff_not, not_and, not_or] at h
  unfold written
  by_cases ht : e.type = EV_ABS
  · obtain ⟨h1, h2, h3⟩ := h ht
    cases fld <;> simp [ht, h1, h2, h3]
  · simp [ht]

theorem readSlot_reset (s : Nat) (hs : s < MAX_SLOTS) :
    readSlot (zeroedSlots.map fun z => { z with tracking_id := -1 }) s = ⟨-1, 0, 0, 0⟩ := by
  simp [readSlot, zeroedSlots, List.getElem?_replicate, hs]

theorem processEvents_unwritten (st : Dispatcher) (hwf : st.WF) (run : List InputEvent)
    (hrun : ∀ e ∈ run, ¬ e.isSyncReport) (s : Nat) (hs : s < MAX_SLOTS)
    (hw : wroteSlot s st.current_slot run = false)
    (h0 : (readSlot st.slots s).active = 0 ∧ (readSlot st.slots s).tracking_id = -1) :
    (readSlot (processEvents st run).1.slots s).active = 0 ∧
      (readSlot (processEvents st run).1.slots s).tracking_id = -1 := by
  induction run generalizing st with
  | nil => exact h0
  | cons e rest ih =>
    have he := hrun e (List.mem_cons_self _ _)
    have hrest : ∀ x ∈ rest, ¬ x.isSyncReport := fun x hx => hrun x (List.mem_cons_of_mem _ hx)
    simp only [wroteSlot, Bool.or_eq_false_iff, Bool.and_eq_false_iff] at hw
    obtain ⟨hw1, hw2⟩ := hw
    show (readSlot (processEvents (handleEvent st e).1 rest).1.slots s).active = 0 ∧ _
    apply ih _ (handleEvent_WF st e hwf) hrest
    · rw [handleEvent_current_slot]; exact hw2
    · by_cases hd : e.isSyncDropped
      · rw [handleEvent_syn_dropped st e hd]
        simp only [readSlot_reset s hs, and_self]
      · have ha := handleEvent_field st e hwf he hd Field.active s
        have ht := handleEvent_field st e hwf he hd Field.trackingId s
        have hnone : ∀ fld, (if st.current_slot = (s : Int) then written fld e else none) =
            none := by
          intro fld
          split_ifs with hc
          · rcases hw1 with h | h
            · simp [hc] at h
            · exact written_of_not_axisWrite fld e h
          · rfl
        rw [hnone] at ha ht
        simp only [SlotState.field, Option.getD_none] at ha ht
        rw [ha, ht]
        exact h0

theorem handleEvent_buffered_sublist (st : Dispatcher) (e : InputEvent) (hwf : st.WF)
    (h1 : ¬ e.isSyncReport) (K : List (Int × Int)) (hK : st.buffered.Sublist K) :
    (handleEvent st e).1.buffered.Sublist (K ++ keyEvents [e]) := by
  by_cases hd : e.isSyncDropped
  · rw [handleEvent_syn_dropped st e hd, buffered_of_count_zero _ rfl]
    exact List.nil_sublist _
  · rw [handleEvent_buffered st e hwf h1 hd]
    exact (List.take_sublist _ _).trans (hK.append (List.Sublist.refl _))

theorem processEvents_buffered_sublist (st : Dispatcher) (hwf : st.WF) (run : List InputEvent)
    (hrun : ∀ e ∈ run, ¬ e.isSyncReport) (K : List (Int × Int))
    (hK : st.buffered.Sublist K) :
    (processEvents st run).1.buffered.Sublist (K ++ keyEvents run) := by
  induction run generalizing st K with
  | nil => simpa [processEvents, keyEvents] using hK
  | cons e rest ih =>
    have he := hrun e (List.mem_cons_self _ _)
    have hrest : ∀ x ∈ rest, ¬ x.isSyncReport := fun x hx => hrun x (List.mem_cons_of_mem _ hx)
    show (processEvents (handleEvent st e).1 rest).1.buffered.Sublist _
    rw [keyEvents_cons, ← List.append_assoc]
    exact ih _ (handleEvent_WF st e hwf) hrest _
      (handleEvent_buffered_sublist st e hwf he K hK)

theorem wroteSlot_of_no_axisWrite (run : List InputEvent)
    (h : ∀ e ∈ run, e.isAxisWrite = false) (s : Nat) (cur : Int) :
    wroteSlot s cur run = false := by
  induction run generalizing cur with
  | nil => rfl
  | cons e rest ih =>
    simp only [wroteSlot, h e (List.mem_cons_self _ _), Bool.and_false, Bool.false_or]
    exact ih (fun x hx => h x (List.mem_cons_of_mem _ hx)) _

/-- C3: for every dispatcher state, a sync dropped followed by a run holding
no sync report delivers nothing, and a frame delivered at the sync report
that ends the run shows inactive (0) and trackingId -1 for every slot that no
axis event of the run wrote (all 10 slots when the run holds no axis write);
the key events delivered with it are among the key events of the run, in
arrival order and at most 16, exactly its first 16 when the run holds no
further sync dropped, so none received before the sync dropped; with a
callback object set the frame is delivered. -/
theorem resync_resets_table (st : Dispatcher) (hwf : st.WF)
    (drop : InputEvent) (hdrop : drop.isSyncDropped)
    (run : List InputEvent) (hrun : ∀ e ∈ run, ¬ e.isSyncReport)
    (sync : InputEvent) (hsync : sync.isSyncReport) :
    (processEvents st (drop :: run)).2 = [] ∧
    (∀ f, Callback.onFrame f ∈ (processEvents st (drop :: run ++ [sync])).2 →
      (∀ s, s < 10 → wroteSlot s st.current_slot run = false →
        f.field Field.active s = 0 ∧ f.field Field.trackingId s = -1) ∧
      ((∀ e ∈ run, e.isAxisWrite = false) →
        ∀ s, s < 10 → f.field Field.active s = 0 ∧ f.field Field.trackingId s = -1)) ∧
    (∃ ks f, ks.Sublist (keyEvents run) ∧ ks.length ≤ 16 ∧
      ((∀ e ∈ run, ¬ e.isSyncDropped) → ks = (keyEvents run).take 16) ∧
      (processEvents st (drop :: run ++ [sync])).2 =
        if st.g_callback_obj = false then [] else keyCalls ks ++ [Callback.onFrame f]) := by
  have hd1 : ¬ drop.isSyncReport := by
    intro h
    have h1 := hdrop.2
    rw [h.2] at h1
    exact absurd h1 (by decide)
  have hall : ∀ e ∈ drop :: run, ¬ e.isSyncReport := by
    intro e he
    rcases List.mem_cons.mp he with h | h
    · rw [h]; exact hd1
    · exact hrun e h
  have hnil : (processEvents st (drop :: run)).2 = [] := processEvents_out_nil st _ hall
  have hwf1 : (handleEvent st drop).1.WF := handleEvent_WF st drop hwf
  have hwf2 : (processEvents st (drop :: run)).1.WF := processEvents_WF st _ hwf
  have hcs1 : (handleEvent st drop).1.current_slot = st.current_slot := by
    rw [handleEvent_syn_dropped st drop hdrop]
  have hb1 : (handleEvent st drop).1.buffered = [] := by
    rw [handleEvent_syn_dropped st drop hdrop]; exact buffered_of_count_zero _ rfl
  have hout : (processEvents st (drop :: run ++ [sync])).2 =
      if st.g_callback_obj = false then []
      else keyCalls (processEvents st (drop :: run)).1.buffered ++
        [Callback.onFrame (processEvents st (drop :: run)).1.snapshot] := by
    rw [show drop :: run ++ [sync] = (drop :: run) ++ [sync] from rfl, processEvents_append, hnil]
    show [] ++ ((handleEvent (processEvents st (drop :: run)).1 sync).2 ++ []) = _
    rw [handleEvent_syn_report_out _ _ hsync, processEvents_callback]
    simp
  have hslot : ∀ s, s < 10 → wroteSlot s st.current_slot run = false →
      (readSlot (processEvents st (drop :: run)).1.slots s).active = 0 ∧
        (readSlot (processEvents st (drop :: run)).1.slots s).tracking_id = -1 := by
    intro s hs hw
    show (readSlot (processEvents (handleEvent st drop).1 run).1.slots s).active = 0 ∧ _
    apply processEvents_unwritten _ hwf1 run hrun s hs
    · rw [hcs1]; exact hw
    · rw [handleEvent_syn_dropped st drop hdrop]
      simp only [readSlot_reset s hs, and_self]
  have hnw : (∀ e ∈ run, e.isAxisWrite = false) → ∀ s cur, wroteSlot s cur run = false :=
    fun h s cur => wroteSlot_of_no_axisWrite run h s cur
  refine ⟨hnil, ?_, ?_⟩
  · intro f hf
    rw [hout] at hf
    split_ifs at hf with hcb
    · simp at hf
    · rw [List.mem_append] at hf
      rcases hf with hf | hf
      · exact absurd hf (mem_keyCalls_ne_onFrame _ _)
      · simp only [List.mem_singleton, Callback.onFrame.injEq] at hf
        subst hf
        have key : ∀ s, s < 10 → wroteSlot s st.current_slot run = false →
            (processEvents st (drop :: run)).1.snapshot.field Field.active s = 0 ∧
              (processEvents st (drop :: run)).1.snapshot.field Field.trackingId s = -1 := by
          intro s hs hw
          rw [snapshot_field _ _ _ hs, snapshot_field _ _ _ hs]
          exact hslot s hs hw
        exact ⟨key, fun h s hs => key s hs (hnw h s _)⟩
  · refine ⟨(processEvents st (drop :: run)).1.buffered,
      (processEvents st (drop :: run)).1.snapshot, ?_, ?_, ?_, hout⟩
    · have := processEvents_buffered_sublist _ hwf1 run hrun [] (by rw [hb1])
      simpa using this
    · rw [buffered_length]
      exact hwf2.2.2.2.2.2
    · intro hnd
      show (processEvents (handleEvent st drop).1 run).1.buffered = _
      rw [processEvents_buffered _ hwf1 run (fun e he => ⟨hrun e he, hnd e he⟩), hb1]
      rfl

/-- A concrete instance: slot 0 holds trackingId 5 and a key event is
buffered when the sync dropped arrives; the next frame shows slot 0
unoccupied. -/
theorem resync_resets_table_witness :
    (processEvents (startState bootGlobals)
      [⟨EV_ABS, ABS_MT_TRACKING_ID, 5⟩, ⟨EV_KEY, 272, 1⟩]).1.WF ∧
    InputEvent.isSyncDropped ⟨EV_SYN, SYN_DROPPED, 0⟩ ∧
    (∀ e ∈ [(⟨EV_KEY, 273, 1⟩ : InputEvent)], ¬ e.isSyncReport) ∧
    InputEvent.isSyncReport ⟨EV_SYN, SYN_REPORT, 0⟩ ∧
    (readSlot (processEvents (startState bootGlobals)
      [⟨EV_ABS, ABS_MT_TRACKING_ID, 5⟩, ⟨EV_KEY, 272, 1⟩]).1.slots 0).tracking_id = 5 ∧
    (∀ f, Callback.onFrame f ∈
        (processEvents (processEvents (startState bootGlobals)
            [⟨EV_ABS, ABS_MT_TRACKING_ID, 5⟩, ⟨EV_KEY, 272, 1⟩]).1
          (⟨EV_SYN, SYN_DROPPED, 0⟩ :: [⟨EV_KEY, 273, 1⟩] ++ [⟨EV_SYN, SYN_REPORT, 0⟩])).2 →
      f.field Field.active 0 = 0 ∧ f.field Field.trackingId 0 = -1) :=
  ⟨by decide, by decide, by decide, by decide, by decide, fun f hf =>
    ((resync_resets_table _ (by decide) ⟨EV_SYN, SYN_DROPPED, 0⟩ (by decide)
      [⟨EV_KEY, 273, 1⟩] (by decide) ⟨EV_SYN, SYN_REPORT, 0⟩ (by decide)).2.1 f hf).1 0
        (by decide) (by decide)⟩

theorem handleEvent_agree (a b : Dispatcher) (e : InputEvent) (ha : a.WF) (hb : b.WF)
    (h : a.agree b) :
    (handleEvent a e).1.agree (handleEvent b e).1 ∧ (handleEvent a e).2 = (handleEvent b e).2 := by
  obtain ⟨h1, h2, h3, h4, h5⟩ := h
  by_cases hr : e.isSyncReport
  · have hs : a.snapshot = b.snapshot := by simp only [Dispatcher.snapshot, h2]
    rw [handleEvent_syn_report a e hr, handleEvent_syn_report b e hr, dispatch_frame_eq,
      dispatch_frame_eq]
    by_cases hc : b.g_callback_obj = false
    · rw [if_pos (h1.trans hc), if_pos hc]
      exact ⟨⟨h1, h2, h3, h4, h5⟩, rfl⟩
    · rw [if_neg (fun h => hc (h1.symm.trans h)), if_neg hc]
      refine ⟨⟨h1, h2, h3, rfl, rfl⟩, ?_⟩
      show keyCalls a.buffered ++ [Callback.onFrame a.snapshot] =
        keyCalls b.buffered ++ [Callback.onFrame b.snapshot]
      rw [h5, hs]
  · by_cases hd : e.isSyncDropped
    · rw [handleEvent_syn_dropped a e hd, handleEvent_syn_dropped b e hd]
      exact ⟨⟨h1, rfl, h3, rfl, rfl⟩, rfl⟩
    · refine ⟨⟨?_, ?_, ?_, ?_, ?_⟩, ?_⟩
      · rw [handleEvent_callback, handleEvent_callback, h1]
      · by_cases ht : e.type = EV_ABS
        · unfold handleEvent
          rw [if_pos ht, if_pos ht, h2, h3]
          split_ifs <;> first | rfl | exact h2
        · by_cases hk : e.type = EV_KEY
          · rw [handleEvent_key a e hk, handleEvent_key b e hk]
            split_ifs <;> exact h2
          · rw [handleEvent_other a e ht hk hr hd, handleEvent_other b e ht hk hr hd]
            exact h2
      · rw [handleEvent_current_slot, handleEvent_current_slot, h3]
      · by_cases hk : e.type = EV_KEY
        · rw [handleEvent_key a e hk, handleEvent_key b e hk, h4]
          split_ifs
          · rfl
          · exact h4
        · by_cases ht : e.type = EV_ABS
          · unfold handleEvent
            rw [if_pos ht, if_pos ht]
            split_ifs <;> exact h4
          · rw [handleEvent_other a e ht hk hr hd, handleEvent_other b e ht hk hr hd]
            exact h4
      · rw [handleEvent_buffered a e ha hr hd, handleEvent_buffered b e hb hr hd, h5]
      · rw [handleEvent_out_nil a e hr, handleEvent_out_nil b e hr]

theorem processEvents_agree (evs : List InputEvent) (a b : Dispatcher) (ha : a.WF) (hb : b.WF)
    (h : a.agree b) :
    (processEvents a evs).1.agree (processEvents b evs).1 ∧
      (processEvents a evs).2 = (processEvents b evs).2 := by
  induction evs generalizing a b with
  | nil => exact ⟨h, rfl⟩
  | cons e rest ih =>
    obtain ⟨h1, h2⟩ := handleEvent_agree a b e ha hb h
    obtain ⟨i1, i2⟩ := ih _ _ (handleEvent_WF a e ha) (handleEvent_WF b e hb) h1
    refine ⟨i1, ?_⟩
    show (handleEvent a e).2 ++ (processEvents (handleEvent a e).1 rest).2 =
      (handleEvent b e).2 ++ (processEvents (handleEvent b e).1 rest).2
    rw [h2, i2]

/-- What the sync dropped does discard: two states with the same callback
object and the same selected slot, whatever their slot tables and key
buffers, deliver the same calls for a sync dropped followed by the same
events. -/
theorem resync_same_slot_same_delivery (a b : Dispatcher) (ha : a.WF) (hb : b.WF)
    (hcb : a.g_callback_obj = b.g_callback_obj) (hcur : a.current_slot = b.current_slot)
    (drop : InputEvent) (hdrop : drop.isSyncDropped) (evs : List InputEvent) :
    (processEvents a (drop :: evs)).2 = (processEvents b (drop :: evs)).2 := by
  have hag : (handleEvent a drop).1.agree (handleEvent b drop).1 := by
    rw [handleEvent_syn_dropped a drop hdrop, handleEvent_syn_dropped b drop hdrop]
    exact ⟨hcb, rfl, hcur, rfl, rfl⟩
  have h2 : (handleEvent a drop).2 = (handleEvent b drop).2 := by
    rw [handleEvent_syn_dropped a drop hdrop, handleEvent_syn_dropped b drop hdrop]
  show (handleEvent a drop).2 ++ (processEvents (handleEvent a drop).1 evs).2 =
    (handleEvent b drop).2 ++ (processEvents (handleEvent b drop).1 evs).2
  rw [h2, (processEvents_agree evs _ _ (handleEvent_WF a drop ha) (handleEvent_WF b drop hb)
    hag).2]

/-- C4, the code at the failing input: two states reached from the
initialisation of startEventLoop, the second after one more slot-select 3,
both with a callback object set, are given the same events sync dropped,
trackingId 7, sync report. The first delivers a frame with trackingId 7 in
slot 0, the second one with trackingId 7 in slot 3: the slot selected before
the sync dropped is kept across it. -/
theorem resync_keeps_selected_slot :
    (processEvents (startState bootGlobals)
      [⟨EV_SYN, SYN_DROPPED, 0⟩, ⟨EV_ABS, ABS_MT_TRACKING_ID, 7⟩, ⟨EV_SYN, SYN_REPORT, 0⟩]).2 =
      [Callback.onFrame
        { slot_active := [1, 0, 0, 0, 0, 0, 0, 0, 0, 0]
          tracking_ids := [7, -1, -1, -1, -1, -1, -1, -1, -1, -1]
          xs := [0, 0, 0, 0, 0, 0, 0, 0, 0, 0]
          ys := [0, 0, 0, 0, 0, 0, 0, 0, 0, 0]
          count := 10 }] ∧
    (processEvents (processEvents (startState bootGlobals) [⟨EV_ABS, ABS_MT_SLOT, 3⟩]).1
      [⟨EV_SYN, SYN_DROPPED, 0⟩, ⟨EV_ABS, ABS_MT_TRACKING_ID, 7⟩, ⟨EV_SYN, SYN_REPORT, 0⟩]).2 =
      [Callback.onFrame
        { slot_active := [0, 0, 0, 1, 0, 0, 0, 0, 0, 0]
          tracking_ids := [-1, -1, -1, 7, -1, -1, -1, -1, -1, -1]
          xs := [0, 0, 0, 0, 0, 0, 0, 0, 0, 0]
          ys := [0, 0, 0, 0, 0, 0, 0, 0, 0, 0]
          count := 10 }] ∧
    (processEvents (startState bootGlobals) [⟨EV_ABS, ABS_MT_SLOT, 3⟩]).1.current_slot = 3 ∧
    (processEvents (processEvents (startState bootGlobals) [⟨EV_ABS, ABS_MT_SLOT, 3⟩]).1
      [⟨EV_SYN, SYN_DROPPED, 0⟩]).1.current_slot = 3 ∧
    (startState (processEvents (startState bootGlobals)
      [⟨EV_ABS, ABS_MT_SLOT, 3⟩]).1).current_slot = 0 := by
  decide

/-! ## Read failures in the event loop -/

theorem loopBody_read_failure (st : Dispatcher) (it : Iteration) (h : it.isReadFailure) :
    loopBody st it =
      ({ st with consecutive_errors := st.consecutive_errors + 1 }, [],
        decide (st.consecutive_errors + 1 > 20)) := by
  obtain ⟨-, h1, h2, h3, h4, h5, h6⟩ := h
  unfold loopBody
  rw [if_neg (by omega), if_neg (by omega), if_neg (by simpa using h2), if_neg h3, if_pos h4,
    if_neg (by tauto)]
  by_cases hc : st.consecutive_errors + 1 > 20 <;> simp [hc]

theorem loopBody_read_eof (st : Dispatcher) (it : Iteration) (h : it.isReadEOF) :
    loopBody st it = (st, [], true) := by
  obtain ⟨-, h1, h2, h3, h4⟩ := h
  unfold loopBody
  rw [if_neg (by omega), if_neg (by omega), if_neg (by simpa using h2), if_neg h3,
    if_neg (by omega), if_pos h4]

theorem eventLoop_failures_running (its : List Iteration) (st : Dispatcher)
    (hits : ∀ it ∈ its, it.isReadFailure)
    (hle : st.consecutive_errors + its.length ≤ 20) :
    eventLoop st its =
      ({ st with consecutive_errors := st.consecutive_errors + its.length }, [], false) := by
  induction its generalizing st with
  | nil => simp [eventLoop]
  | cons it rest ih =>
    have hit := hits it (List.mem_cons_self _ _)
    have hrest : ∀ x ∈ rest, x.isReadFailure := fun x hx => hits x (List.mem_cons_of_mem _ hx)
    simp only [List.length_cons, Nat.cast_add, Nat.cast_one] at hle
    have hnot : ¬ (st.consecutive_errors + 1 > 20) := by omega
    unfold eventLoop
    rw [if_neg (by simp [hit.1]), loopBody_read_failure st it hit]
    simp only [hnot, decide_False, Bool.false_eq_true, if_false]
    rw [ih _ hrest (by simp only []; omega)]
    simp only [List.nil_append, List.length_cons, Nat.cast_add, Nat.cast_one]
    congr 2
    omega

theorem eventLoop_failures_exit (its : List Iteration) (st : Dispatcher)
    (more : List Iteration) (hits : ∀ it ∈ its, it.isReadFailure)
    (hle : st.consecutive_errors ≤ 20)
    (hlen : st.consecutive_errors + its.length = 21) :
    eventLoop st (its ++ more) = ({ st with consecutive_errors := 21 }, [], true) := by
  induction its generalizing st with
  | nil => simp at hlen; omega
  | cons it rest ih =>
    have hit := hits it (List.mem_cons_self _ _)
    have hrest : ∀ x ∈ rest, x.isReadFailure := fun x hx => hits x (List.mem_cons_of_mem _ hx)
    simp only [List.length_cons, Nat.cast_add, Nat.cast_one] at hlen
    rw [List.cons_append]
    unfold eventLoop
    rw [if_neg (by simp [hit.1]), loopBody_read_failure st it hit]
    by_cases hc : st.consecutive_errors + 1 > 20
    · have h21 : st.consecutive_errors + 1 = 21 := by omega
      simp only [h21]
      rfl
    · simp only [hc, decide_False, Bool.false_eq_true, if_false]
      rw [ih _ hrest (by simp only []; omega) (by simp only []; omega)]
      simp

theorem tdiv_120 (a : Int) : a.tdiv 120 = if 0 ≤ a then a / 120 else -((-a) / 120) := by
  split_ifs with h
  · exact Int.tdiv_eq_ediv h (by decide)
  · have h' : 0 ≤ -a := by omega
    have := Int.neg_tdiv (-a) 120
    rw [neg_neg] at this
    rw [this, Int.tdiv_eq_ediv h' (by decide)]

theorem tmod_120 (a : Int) : a.tmod 120 = a - 120 * a.tdiv 120 := Int.tmod_def a 120

theorem wrap32_isInt32 (x : Int) : isInt32 (wrap32 x) := by
  unfold isInt32 wrap32; omega

theorem wrap32_of_isInt32 (x : Int) (h : isInt32 x) : wrap32 x = x := by
  unfold isInt32 at h; unfold wrap32; omega

/-- The accumulator `hiResAxis` leaves: unchanged for `v = 0`, else the
remainder of the wrapped sum in the truncating division by 120. -/
theorem hiResAxis_acc (acc v : Int) (hi tick : Nat) (out : List InputEvent) :
    (hiResAxis acc v hi tick out).1 =
      if v = 0 then acc else (wrap32 (acc + v)).tmod 120 := by
  have hr := wrap32_isInt32 (acc + v)
  unfold isInt32 at hr
  unfold hiResAxis
  by_cases hv : v = 0
  · simp [hv]
  · simp only [hv, ne_eq, not_false_eq_true, if_true, if_false]
    generalize wrap32 (acc + v) = a at hr ⊢
    rw [tmod_120]
    by_cases ht : a.tdiv 120 = 0
    · simp [ht]
    · simp only [ht, not_false_eq_true, if_true]
      have h1 : isInt32 (a.tdiv 120 * 120) := by
        unfold isInt32; rw [tdiv_120]; split_ifs <;> omega
      rw [wrap32_of_isInt32 _ h1]
      have h2 : isInt32 (a - a.tdiv 120 * 120) := by
        unfold isInt32; rw [tdiv_120]; split_ifs <;> omega
      rw [wrap32_of_isInt32 _ h2]
      ring

/-- The events `hiResAxis` writes: for nonzero `v` the hi-res event, then
the legacy tick event when the quotient is nonzero. -/
theorem hiResAxis_out (acc v : Int) (hi tick : Nat) (out : List InputEvent) :
    (hiResAxis acc v hi tick out).2 =
      out ++ (if v = 0 then []
        else ⟨EV_REL, hi, v⟩ ::
          (if (wrap32 (acc + v)).tdiv 120 = 0 then []
            else [⟨EV_REL, tick, (wrap32 (acc + v)).tdiv 120⟩])) := by
  unfold hiResAxis emit
  by_cases hv : v = 0
  · simp [hv]
  · by_cases ht : (wrap32 (acc + v)).tdiv 120 = 0 <;> simp [hv, ht]

theorem tmod_120_bound (a : Int) : -120 < a.tmod 120 ∧ a.tmod 120 < 120 := by
  rw [tmod_120, tdiv_120]; split_ifs <;> omega

theorem hiResAxis_bounded (acc v : Int) (hi tick : Nat) (out : List InputEvent)
    (h : -120 < acc ∧ acc < 120) :
    -120 < (hiResAxis acc v hi tick out).1 ∧ (hiResAxis acc v hi tick out).1 < 120 := by
  rw [hiResAxis_acc]
  split_ifs
  · exact h
  · exact tmod_120_bound _

theorem zero_accBounded (fd : Int) : Mouse.accBounded ⟨fd, 0, 0⟩ := by
  unfold Mouse.accBounded
  simp

theorem sendWheelHiRes_bounded (m : Mouse) (fd v h : Int) (hm : m.accBounded) :
    (sendWheelHiRes m fd v h).1.accBounded := by
  unfold sendWheelHiRes
  split_ifs
  · exact hm
  · exact ⟨hiResAxis_bounded _ _ _ _ _ hm.1, hiResAxis_bounded _ _ _ _ _ hm.2⟩

theorem run_bounded (m : Mouse) (c : MouseCall) (hm : m.accBounded) : (c.run m).1.accBounded := by
  cases c with
  | createMouseDevice fd s c =>
    simp only [MouseCall.run, createMouseDevice]
    split_ifs <;> exact hm
  | sendRelMove fd dx dy =>
    simp only [MouseCall.run, sendRelMove]
    split_ifs <;> exact hm
  | sendWheel fd v h =>
    simp only [MouseCall.run, sendWheel]
    split_ifs <;> exact hm
  | sendWheelHiRes fd v h => exact sendWheelHiRes_bounded m fd v h hm
  | sendMouseButton fd b d =>
    simp only [MouseCall.run, sendMouseButton]
    split_ifs <;> exact hm
  | destroyMouseDevice fd =>
    simp only [MouseCall.run, destroyMouseDevice]
    split_ifs
    · exact hm
    · exact zero_accBounded _

theorem runCalls_bounded (calls : List MouseCall) (m : Mouse) (hm : m.accBounded) :
    (runCalls m calls).1.accBounded := by
  induction calls generalizing m with
  | nil => exact hm
  | cons c rest ih => exact ih _ (run_bounded m c hm)

/-- C7: starting from zero accumulators, after every sequence of calls of
the entry points of uinput_mouse.c, so after every wheelHiRes call, whatever
v and h are (additions wrapped to signed 32 bits), the vertical and the
horizontal accumulator each have magnitude strictly below 120; each of
sendWheelHiRes, sendRelMove, sendWheel, sendMouseButton and
destroyMouseDevice keeps that bound. -/
theorem accumulators_stay_below_tick (mouse_fd : Int) (calls : List MouseCall) :
    (runCalls ⟨mouse_fd, 0, 0⟩ calls).1.accBounded ∧
    (∀ (m : Mouse) (fd v h : Int), m.accBounded → (sendWheelHiRes m fd v h).1.accBounded) ∧
    (∀ (m : Mouse) (fd dx dy : Int), m.accBounded → (sendRelMove m fd dx dy).1.accBounded) ∧
    (∀ (m : Mouse) (fd v h : Int), m.accBounded → (sendWheel m fd v h).1.accBounded) ∧
    (∀ (m : Mouse) (fd btn : Int) (down : Bool), m.accBounded →
      (sendMouseButton m fd btn down).1.accBounded) ∧
    (∀ (m : Mouse) (fd : Int), m.accBounded → (destroyMouseDevice m fd).1.accBounded) :=
  ⟨runCalls_bounded calls _ (zero_accBounded _),
    fun m fd v h hm => sendWheelHiRes_bounded m fd v h hm,
    fun m fd dx dy hm => run_bounded m (.sendRelMove fd dx dy) hm,
    fun m fd v h hm => run_bounded m (.sendWheel fd v h) hm,
    fun m fd b d hm => run_bounded m (.sendMouseButton fd b d) hm,
    fun m fd hm => run_bounded m (.destroyMouseDevice fd) hm⟩

/-- A concrete instance with values at the ends of the 32-bit range, where
the additions wrap. -/
theorem accumulators_stay_below_tick_witness :
    (runCalls ⟨3, 0, 0⟩
      [MouseCall.sendWheelHiRes 3 2147483647 (-2147483648), MouseCall.sendWheelHiRes 3 2147483647 (-1),
        MouseCall.sendRelMove 3 1 1]).1.accBounded ∧
    (runCalls ⟨3, 0, 0⟩
      [MouseCall.sendWheelHiRes 3 2147483647 (-2147483648),
        MouseCall.sendWheelHiRes 3 2147483647 (-1)]).1 = ⟨3, -2, -9⟩ :=
  ⟨(accumulators_stay_below_tick 3 _).1, by decide⟩

/-! ## Legacy ticks and conservation of scroll distance -/

theorem relSum_append (code : Nat) (a b : List InputEvent) :
    relSum code (a ++ b) = relSum code a + relSum code b := by
  simp [relSum, List.filter_append, List.sum_append]

theorem relSum_nil (code : Nat) : relSum code [] = 0 := rfl

theorem relSum_cons (code : Nat) (e : InputEvent) (rest : List InputEvent) :
    relSum code (e :: rest) =
      (if e.type = EV_REL ∧ e.code = code then e.value else 0) + relSum code rest := by
  by_cases h : e.type = EV_REL ∧ e.code = code <;> simp [relSum, List.filter_cons, h]

/-- The events of one `sendWheelHiRes` call on a valid descriptor. -/
theorem sendWheelHiRes_out (m : Mouse) (fd v h : Int) (hfd : 0 ≤ fd) :
    (sendWheelHiRes m fd v h).2 =
      (if v = 0 then []
        else ⟨EV_REL, REL_WHEEL_HI_RES, v⟩ ::
          (if (wrap32 (m.hiResAccV + v)).tdiv 120 = 0 then []
            else [⟨EV_REL, REL_WHEEL, (wrap32 (m.hiResAccV + v)).tdiv 120⟩])) ++
      (if h = 0 then []
        else ⟨EV_REL, REL_HWHEEL_HI_RES, h⟩ ::
          (if (wrap32 (m.hiResAccH + h)).tdiv 120 = 0 then []
            else [⟨EV_REL, REL_HWHEEL, (wrap32 (m.hiResAccH + h)).tdiv 120⟩])) ++
      [⟨EV_SYN, SYN_REPORT, 0⟩] := by
  unfold sendWheelHiRes
  rw [if_neg (by omega)]
  simp only [hiResAxis_out, emit, List.nil_append]

theorem sendWheelHiRes_state (m : Mouse) (fd v h : Int) (hfd : 0 ≤ fd) :
    (sendWheelHiRes m fd v h).1 =
      { m with
        hiResAccV := if v = 0 then m.hiResAccV else (wrap32 (m.hiResAccV + v)).tmod 120
        hiResAccH := if h = 0 then m.hiResAccH else (wrap32 (m.hiResAccH + h)).tmod 120 } := by
  unfold sendWheelHiRes
  rw [if_neg (by omega)]
  simp only [hiResAxis_acc]

theorem sendWheelHiRes_relSum (m : Mouse) (fd v h : Int) (hfd : 0 ≤ fd) :
    relSum REL_WHEEL (sendWheelHiRes m fd v h).2 =
      (if v = 0 then 0 else (wrap32 (m.hiResAccV + v)).tdiv 120) ∧
    relSum REL_HWHEEL (sendWheelHiRes m fd v h).2 =
      (if h = 0 then 0 else (wrap32 (m.hiResAccH + h)).tdiv 120) ∧
    relSum REL_WHEEL_HI_RES (sendWheelHiRes m fd v h).2 = v ∧
    relSum REL_HWHEEL_HI_RES (sendWheelHiRes m fd v h).2 = h := by
  rw [sendWheelHiRes_out m fd v h hfd]
  refine ⟨?_, ?_, ?_, ?_⟩ <;>
    by_cases hv : v = 0 <;> by_cases hh : h = 0 <;>
    by_cases tv : (wrap32 (m.hiResAccV + v)).tdiv 120 = 0 <;>
    by_cases th : (wrap32 (m.hiResAccH + h)).tdiv 120 = 0 <;>
    simp [relSum_append, relSum_cons, relSum_nil, hv, hh, tv, th, EV_REL, EV_SYN, REL_WHEEL,
      REL_HWHEEL, REL_WHEEL_HI_RES, REL_HWHEEL_HI_RES]

theorem eventsOf_cons (m : Mouse) (c : MouseCall) (rest : List MouseCall) :
    eventsOf m (c :: rest) = (c.run m).2 ++ eventsOf (c.run m).1 rest := by
  simp [eventsOf, runCalls]

theorem runCalls_cons_state (m : Mouse) (c : MouseCall) (rest : List MouseCall) :
    (runCalls m (c :: rest)).1 = (runCalls (c.run m).1 rest).1 := rfl

/-- Refinement: under `noOverflow` the accumulators and the legacy tick sums
of a sequence of `sendWheelHiRes` calls are those of `axisSpec`, and the
hi-res events carry the values passed. -/
theorem hiResCalls_refine (fd : Int) (hfd : 0 ≤ fd) (vhs : List (Int × Int)) (m : Mouse)
    (hno : noOverflow fd m vhs) :
    ((runCalls m (hiResCalls fd vhs)).1.hiResAccV =
        (axisSpec m.hiResAccV (vhs.map Prod.fst)).1 ∧
      relSum REL_WHEEL (eventsOf m (hiResCalls fd vhs)) =
        (axisSpec m.hiResAccV (vhs.map Prod.fst)).2 ∧
      relSum REL_WHEEL_HI_RES (eventsOf m (hiResCalls fd vhs)) = (vhs.map Prod.fst).sum) ∧
    ((runCalls m (hiResCalls fd vhs)).1.hiResAccH =
        (axisSpec m.hiResAccH (vhs.map Prod.snd)).1 ∧
      relSum REL_HWHEEL (eventsOf m (hiResCalls fd vhs)) =
        (axisSpec m.hiResAccH (vhs.map Prod.snd)).2 ∧
      relSum REL_HWHEEL_HI_RES (eventsOf m (hiResCalls fd vhs)) = (vhs.map Prod.snd).sum) := by
  induction vhs generalizing m with
  | nil => simp [hiResCalls, runCalls, eventsOf, axisSpec, relSum]
  | cons p rest ih =>
    obtain ⟨hv, hh, hrest⟩ := hno
    obtain ⟨r1, r2, r3, r4⟩ := sendWheelHiRes_relSum m fd p.1 p.2 hfd
    have hst := sendWheelHiRes_state m fd p.1 p.2 hfd
    have hwv : p.1 ≠ 0 → wrap32 (m.hiResAccV + p.1) = m.hiResAccV + p.1 :=
      fun h0 => wrap32_of_isInt32 _ (hv h0)
    have hwh : p.2 ≠ 0 → wrap32 (m.hiResAccH + p.2) = m.hiResAccH + p.2 :=
      fun h0 => wrap32_of_isInt32 _ (hh h0)
    have hV : (sendWheelHiRes m fd p.1 p.2).1.hiResAccV =
        if p.1 = 0 then m.hiResAccV else (m.hiResAccV + p.1).tmod 120 := by
      rw [hst]; by_cases h0 : p.1 = 0
      · simp [h0]
      · simp [h0, hwv h0]
    have hH : (sendWheelHiRes m fd p.1 p.2).1.hiResAccH =
        if p.2 = 0 then m.hiResAccH else (m.hiResAccH + p.2).tmod 120 := by
      rw [hst]; by_cases h0 : p.2 = 0
      · simp [h0]
      · simp [h0, hwh h0]
    have r1' : relSum REL_WHEEL (sendWheelHiRes m fd p.1 p.2).2 =
        if p.1 = 0 then 0 else (m.hiResAccV + p.1).tdiv 120 := by
      rw [r1]; by_cases h0 : p.1 = 0
      · simp [h0]
      · simp [h0, hwv h0]
    have r2' : relSum REL_HWHEEL (sendWheelHiRes m fd p.1 p.2).2 =
        if p.2 = 0 then 0 else (m.hiResAccH + p.2).tdiv 120 := by
      rw [r2]; by_cases h0 : p.2 = 0
      · simp [h0]
      · simp [h0, hwh h0]
    obtain ⟨⟨i1, i2, i3⟩, ⟨i4, i5, i6⟩⟩ := ih _ hrest
    have hc : hiResCalls fd (p :: rest) =
        MouseCall.sendWheelHiRes fd p.1 p.2 :: hiResCalls fd rest := rfl
    simp only [hc, runCalls_cons_state, eventsOf_cons, relSum_append, MouseCall.run,
      List.map_cons, List.sum_cons, axisSpec]
    rw [i1, i2, i3, i4, i5, i6, hV, hH, r1', r2', r3, r4]
    exact ⟨⟨rfl, rfl, rfl⟩, ⟨rfl, rfl, rfl⟩⟩

theorem axisSpec_conservation (vs : List Int) (acc : Int) :
    vs.sum = 120 * (axisSpec acc vs).2 + (axisSpec acc vs).1 - acc := by
  induction vs generalizing acc with
  | nil => simp [axisSpec]
  | cons v rest ih =>
    simp only [axisSpec, List.sum_cons]
    by_cases h0 : v = 0
    · simp only [h0, if_true, zero_add]
      exact ih acc
    · simp only [h0, if_false]
      have h1 := Int.tdiv_add_tmod (acc + v) 120
      have h2 := ih ((acc + v).tmod 120)
      linarith

theorem axisSpec_nonneg (vs : List Int) (acc : Int) (hacc : 0 ≤ acc ∧ acc < 120)
    (hvs : ∀ v ∈ vs, 0 ≤ v) :
    (axisSpec acc vs).2 = (acc + vs.sum) / 120 ∧ (axisSpec acc vs).1 = (acc + vs.sum) % 120 := by
  induction vs generalizing acc with
  | nil => simp only [axisSpec, List.sum_nil, add_zero]; omega
  | cons v rest ih =>
    have hv := hvs v (List.mem_cons_self _ _)
    have hrest : ∀ x ∈ rest, 0 ≤ x := fun x hx => hvs x (List.mem_cons_of_mem _ hx)
    simp only [axisSpec, List.sum_cons]
    by_cases h0 : v = 0
    · simp only [h0, if_true, zero_add]
      exact ih acc hacc hrest
    · simp only [h0, if_false]
      have hm : (acc + v).tmod 120 = (acc + v) % 120 := by
        rw [tmod_120, tdiv_120, if_pos (by omega)]; omega
      have hd : (acc + v).tdiv 120 = (acc + v) / 120 := by
        rw [tdiv_120, if_pos (by omega)]
      rw [hm, hd]
      obtain ⟨i1, i2⟩ := ih ((acc + v) % 120) (by omega) hrest
      rw [i1, i2]
      constructor <;> omega

theorem axisSpec_nonpos (vs : List Int) (acc : Int) (hacc : -120 < acc ∧ acc ≤ 0)
    (hvs : ∀ v ∈ vs, v ≤ 0) :
    (axisSpec acc vs).2 = -((-(acc + vs.sum)) / 120) ∧
      (axisSpec acc vs).1 = -((-(acc + vs.sum)) % 120) := by
  induction vs generalizing acc with
  | nil => simp only [axisSpec, List.sum_nil, add_zero]; omega
  | cons v rest ih =>
    have hv := hvs v (List.mem_cons_self _ _)
    have hrest : ∀ x ∈ rest, x ≤ 0 := fun x hx => hvs x (List.mem_cons_of_mem _ hx)
    simp only [axisSpec, List.sum_cons]
    by_cases h0 : v = 0
    · simp only [h0, if_true, zero_add]
      exact ih acc hacc hrest
    · simp only [h0, if_false]
      have hd : (acc + v).tdiv 120 = -((-(acc + v)) / 120) := by
        rw [tdiv_120, if_neg (by omega)]
      have hm : (acc + v).tmod 120 = -((-(acc + v)) % 120) := by
        rw [tmod_120, hd]; omega
      rw [hm, hd]
      obtain ⟨i1, i2⟩ := ih (-((-(acc + v)) % 120)) (by omega) hrest
      rw [i1, i2]
      constructor <;> omega

/-- C6 as stated fails for values of mixed signs: from zero accumulators the
calls wheelHiRes(150, 0), wheelHiRes(-60, 0) on descriptor 3, no addition
overflowing, emit legacy wheel ticks of sum 1 and leave the vertical
accumulator at -30, while 150 + -60 = 90 has quotient 0 and remainder 90 by
120, with floor as with truncation. -/
theorem mixed_signs_tick_total :
    noOverflow 3 ⟨3, 0, 0⟩ [(150, 0), (-60, 0)] ∧
    eventsOf ⟨3, 0, 0⟩ (hiResCalls 3 [(150, 0), (-60, 0)]) =
      [⟨EV_REL, REL_WHEEL_HI_RES, 150⟩, ⟨EV_REL, REL_WHEEL, 1⟩, ⟨EV_SYN, SYN_REPORT, 0⟩,
        ⟨EV_REL, REL_WHEEL_HI_RES, -60⟩, ⟨EV_SYN, SYN_REPORT, 0⟩] ∧
    relSum REL_WHEEL (eventsOf ⟨3, 0, 0⟩ (hiResCalls 3 [(150, 0), (-60, 0)])) = 1 ∧
    (runCalls ⟨3, 0, 0⟩ (hiResCalls 3 [(150, 0), (-60, 0)])).1.hiResAccV = -30 ∧
    ([(150, 0), (-60, 0)].map Prod.fst).sum = (90 : Int) ∧
    (90 : Int) / 120 = 0 ∧ (90 : Int).tdiv 120 = 0 ∧
    (90 : Int) % 120 = 90 ∧ (90 : Int).tmod 120 = 90 := by
  decide

/-- C6 (amended): for every sequence of wheelHiRes calls on a valid
descriptor in which no addition overflows, starting from zero accumulators,
when the vertical values are all nonnegative or all nonpositive the sum of
the legacy wheel tick values emitted over the whole sequence is the quotient
of v1+...+vk by 120 truncated toward zero, and the final vertical accumulator
is the remainder of that division, which has the sign of the sum; for
nonnegative values these are floor((v1+...+vk)/120) and (v1+...+vk) mod 120.
Likewise for the horizontal axis. -/
theorem same_sign_tick_total (fd : Int) (hfd : 0 ≤ fd) (mouse_fd : Int)
    (vhs : List (Int × Int)) (hno : noOverflow fd ⟨mouse_fd, 0, 0⟩ vhs) :
    (((∀ p ∈ vhs, 0 ≤ p.1) ∨ (∀ p ∈ vhs, p.1 ≤ 0)) →
      relSum REL_WHEEL (eventsOf ⟨mouse_fd, 0, 0⟩ (hiResCalls fd vhs)) =
        (vhs.map Prod.fst).sum.tdiv 120 ∧
      (runCalls ⟨mouse_fd, 0, 0⟩ (hiResCalls fd vhs)).1.hiResAccV =
        (vhs.map Prod.fst).sum.tmod 120) ∧
    ((∀ p ∈ vhs, 0 ≤ p.1) →
      relSum REL_WHEEL (eventsOf ⟨mouse_fd, 0, 0⟩ (hiResCalls fd vhs)) =
        (vhs.map Prod.fst).sum / 120 ∧
      (runCalls ⟨mouse_fd, 0, 0⟩ (hiResCalls fd vhs)).1.hiResAccV =
        (vhs.map Prod.fst).sum % 120) ∧
    (((∀ p ∈ vhs, 0 ≤ p.2) ∨ (∀ p ∈ vhs, p.2 ≤ 0)) →
      relSum REL_HWHEEL (eventsOf ⟨mouse_fd, 0, 0⟩ (hiResCalls fd vhs)) =
        (vhs.map Prod.snd).sum.tdiv 120 ∧
      (runCalls ⟨mouse_fd, 0, 0⟩ (hiResCalls fd vhs)).1.hiResAccH =
        (vhs.map Prod.snd).sum.tmod 120) ∧
    ((∀ p ∈ vhs, 0 ≤ p.2) →
      relSum REL_HWHEEL (eventsOf ⟨mouse_fd, 0, 0⟩ (hiResCalls fd vhs)) =
        (vhs.map Prod.snd).sum / 120 ∧
      (runCalls ⟨mouse_fd, 0, 0⟩ (hiResCalls fd vhs)).1.hiResAccH =
        (vhs.map Prod.snd).sum % 120) := by
  obtain ⟨⟨a1, a2, -⟩, ⟨b1, b2, -⟩⟩ := hiResCalls_refine fd hfd vhs ⟨mouse_fd, 0, 0⟩ hno
  simp only at a1 a2 b1 b2
  have key : ∀ vs : List Int,
      (((∀ v ∈ vs, 0 ≤ v) ∨ (∀ v ∈ vs, v ≤ 0)) →
        (axisSpec 0 vs).2 = vs.sum.tdiv 120 ∧ (axisSpec 0 vs).1 = vs.sum.tmod 120) ∧
      ((∀ v ∈ vs, 0 ≤ v) →
        (axisSpec 0 vs).2 = vs.sum / 120 ∧ (axisSpec 0 vs).1 = vs.sum % 120) := by
    intro vs
    have hpos : (∀ v ∈ vs, 0 ≤ v) →
        (axisSpec 0 vs).2 = vs.sum / 120 ∧ (axisSpec 0 vs).1 = vs.sum % 120 := by
      intro h
      have := axisSpec_nonneg vs 0 (by decide) h
      simpa using this
    refine ⟨?_, hpos⟩
    rintro (h | h)
    · have hs : 0 ≤ vs.sum := List.sum_nonneg h
      obtain ⟨p1, p2⟩ := hpos h
      rw [p1, p2, tmod_120, tdiv_120, if_pos hs]
      constructor <;> omega
    · have hs : vs.sum ≤ 0 := by
        have h' : ∀ x ∈ vs.map (fun v => -v), 0 ≤ x := by
          intro x hx
          obtain ⟨v, hv, rfl⟩ := List.mem_map.mp hx
          have := h v hv
          omega
        have h2 := List.sum_nonneg h'
        have h3 : (vs.map (fun v => -v)).sum = -vs.sum := by
          clear h h' h2 hpos
          induction vs with
          | nil => rfl
          | cons a t ih => simp only [List.map_cons, List.sum_cons, ih]; ring
        omega
      have := axisSpec_nonpos vs 0 (by decide) h
      simp only [zero_add] at this
      obtain ⟨p1, p2⟩ := this
      rw [p1, p2, tmod_120, tdiv_120]
      split_ifs <;> constructor <;> omega
  have hfst : ∀ (P : Int → Prop), (∀ p ∈ vhs, P p.1) → ∀ v ∈ vhs.map Prod.fst, P v := by
    intro P h v hv
    obtain ⟨p, hp, rfl⟩ := List.mem_map.mp hv
    exact h p hp
  have hsnd : ∀ (P : Int → Prop), (∀ p ∈ vhs, P p.2) → ∀ v ∈ vhs.map Prod.snd, P v := by
    intro P h v hv
    obtain ⟨p, hp, rfl⟩ := List.mem_map.mp hv
    exact h p hp
  rw [a1, a2, b1, b2]
  refine ⟨?_, ?_, ?_, ?_⟩
  · rintro (h | h)
    · exact (key _).1 (Or.inl (hfst (fun v => 0 ≤ v) h))
    · exact (key _).1 (Or.inr (hfst (fun v => v ≤ 0) h))
  · intro h
    exact (key _).2 (hfst (fun v => 0 ≤ v) h)
  · rintro (h | h)
    · exact (key _).1 (Or.inl (hsnd (fun v => 0 ≤ v) h))
    · exact (key _).1 (Or.inr (hsnd (fun v => v ≤ 0) h))
  · intro h
    exact (key _).2 (hsnd (fun v => 0 ≤ v) h)

/-- A concrete instance with nonpositive vertical values: -150 then -100. -/
theorem same_sign_tick_total_witness :
    (0 : Int) ≤ 3 ∧ noOverflow 3 ⟨3, 0, 0⟩ [(-150, 100), (-100, 50)] ∧
    ((∀ p ∈ [((-150 : Int), (100 : Int)), (-100, 50)], 0 ≤ p.1) ∨
      (∀ p ∈ [((-150 : Int), (100 : Int)), (-100, 50)], p.1 ≤ 0)) ∧
    relSum REL_WHEEL (eventsOf ⟨3, 0, 0⟩ (hiResCalls 3 [(-150, 100), (-100, 50)])) =
      ([((-150 : Int), (100 : Int)), (-100, 50)].map Prod.fst).sum.tdiv 120 ∧
    (runCalls ⟨3, 0, 0⟩ (hiResCalls 3 [(-150, 100), (-100, 50)])).1.hiResAccV =
      ([((-150 : Int), (100 : Int)), (-100, 50)].map Prod.fst).sum.tmod 120 :=
  ⟨by decide, by decide, by decide,
    (same_sign_tick_total 3 (by decide) 3 [(-150, 100), (-100, 50)] (by decide)).1 (by decide)⟩

theorem tdiv_120_ne_zero_iff (a : Int) : a.tdiv 120 ≠ 0 ↔ 120 ≤ |a| := by
  rw [tdiv_120]
  rcases abs_cases a with ⟨h1, h2⟩ | ⟨h1, h2⟩ <;> rw [h1] <;> split_ifs <;> omega

theorem sendWheelHiRes_tick_iff (m : Mouse) (fd v h : Int) (hfd : 0 ≤ fd) :
    ((∃ e ∈ (sendWheelHiRes m fd v h).2, e.type = EV_REL ∧ e.code = REL_WHEEL) ↔
      (v ≠ 0 ∧ 120 ≤ |wrap32 (m.hiResAccV + v)|)) ∧
    ((∃ e ∈ (sendWheelHiRes m fd v h).2, e.type = EV_REL ∧ e.code = REL_HWHEEL) ↔
      (h ≠ 0 ∧ 120 ≤ |wrap32 (m.hiResAccH + h)|)) := by
  rw [sendWheelHiRes_out m fd v h hfd, ← tdiv_120_ne_zero_iff, ← tdiv_120_ne_zero_iff]
  constructor <;>
    by_cases hv : v = 0 <;> by_cases hh : h = 0 <;>
    by_cases tv : (wrap32 (m.hiResAccV + v)).tdiv 120 = 0 <;>
    by_cases th : (wrap32 (m.hiResAccH + h)).tdiv 120 = 0 <;>
    simp [hv, hh, tv, th, EV_REL, EV_SYN, REL_WHEEL, REL_HWHEEL, REL_WHEEL_HI_RES,
      REL_HWHEEL_HI_RES]

/-- C8: for every sequence of wheelHiRes calls on a valid descriptor in
which no addition overflows, on each axis the sum of the hi-res values passed
(which is the sum of the hi-res values emitted) equals 120 times the sum of
the legacy tick values emitted plus the final accumulator minus the initial
one; in each call the accumulator becomes the old one plus the value minus
120 times the tick value emitted, and a legacy tick event is emitted exactly
when the value is nonzero and the accumulator plus the value has magnitude at
least 120. From zero, wheelHiRes(v=150) emits hi-res 150 and legacy tick 1
leaving 30; then wheelHiRes(v=50) emits hi-res 50 and no legacy tick leaving
80. -/
theorem hires_scroll_conserved (fd : Int) (hfd : 0 ≤ fd) (m : Mouse) (vhs : List (Int × Int))
    (hno : noOverflow fd m vhs) :
    ((vhs.map Prod.fst).sum =
        120 * relSum REL_WHEEL (eventsOf m (hiResCalls fd vhs)) +
          (runCalls m (hiResCalls fd vhs)).1.hiResAccV - m.hiResAccV ∧
      relSum REL_WHEEL_HI_RES (eventsOf m (hiResCalls fd vhs)) = (vhs.map Prod.fst).sum) ∧
    ((vhs.map Prod.snd).sum =
        120 * relSum REL_HWHEEL (eventsOf m (hiResCalls fd vhs)) +
          (runCalls m (hiResCalls fd vhs)).1.hiResAccH - m.hiResAccH ∧
      relSum REL_HWHEEL_HI_RES (eventsOf m (hiResCalls fd vhs)) = (vhs.map Prod.snd).sum) ∧
    (∀ (m0 : Mouse) (v h : Int), (v ≠ 0 → isInt32 (m0.hiResAccV + v)) →
      (h ≠ 0 → isInt32 (m0.hiResAccH + h)) →
      ((sendWheelHiRes m0 fd v h).1.hiResAccV =
          m0.hiResAccV + v - 120 * relSum REL_WHEEL (sendWheelHiRes m0 fd v h).2 ∧
        ((∃ e ∈ (sendWheelHiRes m0 fd v h).2, e.type = EV_REL ∧ e.code = REL_WHEEL) ↔
          (v ≠ 0 ∧ 120 ≤ |m0.hiResAccV + v|))) ∧
      ((sendWheelHiRes m0 fd v h).1.hiResAccH =
          m0.hiResAccH + h - 120 * relSum REL_HWHEEL (sendWheelHiRes m0 fd v h).2 ∧
        ((∃ e ∈ (sendWheelHiRes m0 fd v h).2, e.type = EV_REL ∧ e.code = REL_HWHEEL) ↔
          (h ≠ 0 ∧ 120 ≤ |m0.hiResAccH + h|)))) ∧
    (∀ mouse_fd : Int,
      sendWheelHiRes ⟨mouse_fd, 0, 0⟩ fd 150 0 =
        (⟨mouse_fd, 30, 0⟩,
          [⟨EV_REL, REL_WHEEL_HI_RES, 150⟩, ⟨EV_REL, REL_WHEEL, 1⟩, ⟨EV_SYN, SYN_REPORT, 0⟩]) ∧
      sendWheelHiRes ⟨mouse_fd, 30, 0⟩ fd 50 0 =
        (⟨mouse_fd, 80, 0⟩, [⟨EV_REL, REL_WHEEL_HI_RES, 50⟩, ⟨EV_SYN, SYN_REPORT, 0⟩])) := by
  obtain ⟨⟨a1, a2, a3⟩, ⟨b1, b2, b3⟩⟩ := hiResCalls_refine fd hfd vhs m hno
  refine ⟨⟨?_, a3⟩, ⟨?_, b3⟩, ?_, ?_⟩
  · rw [a1, a2]; exact axisSpec_conservation _ _
  · rw [b1, b2]; exact axisSpec_conservation _ _
  · intro m0 v h hv hh
    obtain ⟨r1, r2, -, -⟩ := sendWheelHiRes_relSum m0 fd v h hfd
    obtain ⟨t1, t2⟩ := sendWheelHiRes_tick_iff m0 fd v h hfd
    have hst := sendWheelHiRes_state m0 fd v h hfd
    refine ⟨⟨?_, ?_⟩, ⟨?_, ?_⟩⟩
    · rw [r1, hst]
      by_cases h0 : v = 0
      · simp [h0]
      · simp only [h0, if_false, wrap32_of_isInt32 _ (hv h0), tmod_120]
    · rw [t1]
      by_cases h0 : v = 0
      · simp [h0]
      · rw [wrap32_of_isInt32 _ (hv h0)]
    · rw [r2, hst]
      by_cases h0 : h = 0
      · simp [h0]
      · simp only [h0, if_false, wrap32_of_isInt32 _ (hh h0), tmod_120]
    · rw [t2]
      by_cases h0 : h = 0
      · simp [h0]
      · rw [wrap32_of_isInt32 _ (hh h0)]
  · intro mouse_fd
    have e1 : wrap32 150 = 150 := by decide
    have e2 : wrap32 80 = 80 := by decide
    have e3 : (150 : Int).tdiv 120 = 1 := by decide
    have e4 : (80 : Int).tdiv 120 = 0 := by decide
    have e5 : wrap32 120 = 120 := by decide
    have e6 : wrap32 30 = 30 := by decide
    constructor <;>
      simp [sendWheelHiRes, hiResAxis, emit, e1, e2, e3, e4, e5, e6, Int.not_lt.mpr hfd]

/-- A concrete instance: the calls (150, -7) and (50, -300) from zero. -/
theorem hires_scroll_conserved_witness :
    (0 : Int) ≤ 3 ∧ noOverflow 3 ⟨3, 0, 0⟩ [(150, -7), (50, -300)] ∧
    ([((150 : Int), (-7 : Int)), (50, -300)].map Prod.fst).sum =
      120 * relSum REL_WHEEL (eventsOf ⟨3, 0, 0⟩ (hiResCalls 3 [(150, -7), (50, -300)])) +
        (runCalls ⟨3, 0, 0⟩ (hiResCalls 3 [(150, -7), (50, -300)])).1.hiResAccV -
          (⟨3, 0, 0⟩ : Mouse).hiResAccV :=
  ⟨by decide, by decide,
    (hires_scroll_conserved 3 (by decide) ⟨3, 0, 0⟩ [(150, -7), (50, -300)] (by decide)).1.1⟩

/-! ## injectTouch -/

theorem injectLoop_released (pts : List Int) (n i : Nat) (out : List InputEvent)
    (h : ∀ k, k < n → pts.getD ((i + k) * 4 + 3) 0 = -1) :
    injectLoop pts n i out =
      out ++ (List.range n).flatMap fun k =>
        [⟨EV_ABS, ABS_MT_SLOT, pts.getD ((i + k) * 4 + 0) 0⟩,
          ⟨EV_ABS, ABS_MT_TRACKING_ID, -1⟩] := by
  induction n generalizing i out with
  | zero => simp [injectLoop]
  | succ n ih =>
    have h0 : pts.getD (i * 4 + 3) 0 = -1 := by simpa using h 0 (Nat.succ_pos n)
    have hrest : ∀ k, k < n → pts.getD ((i + 1 + k) * 4 + 3) 0 = -1 := by
      intro k hk
      have := h (k + 1) (Nat.succ_lt_succ hk)
      rwa [show i + (k + 1) = i + 1 + k from by omega] at this
    rw [injectLoop]
    simp only [h0]
    rw [if_neg (by decide), ih (i + 1) _ hrest, List.range_succ_eq_map, List.flatMap_cons,
      List.flatMap_map]
    simp only [emit, List.append_assoc, List.singleton_append, List.cons_append,
      List.nil_append, Nat.add_zero, Nat.succ_eq_add_one]
    congr 3
    apply List.flatMap_congr  
    intro k _
    rw [show i + 1 + k = i + (k + 1) from by omega]

theorem injectTouch_released (fd : Int) (hfd : 0 ≤ fd) (pts : List Int) (count : Int)
    (hcount : 0 < count)
    (hall : ∀ i : Nat, (i : Int) < count → pts.getD (i * 4 + 3) 0 = -1) :
    injectTouch fd pts count =
      ((List.range count.toNat).flatMap fun k =>
        [⟨EV_ABS, ABS_MT_SLOT, pts.getD (k * 4 + 0) 0⟩, ⟨EV_ABS, ABS_MT_TRACKING_ID, -1⟩]) ++
      [⟨EV_SYN, SYN_REPORT, 0⟩] := by
  unfold injectTouch
  rw [if_neg (by omega), injectLoop_released pts count.toNat 0 []
    (fun k hk => by rw [Nat.zero_add]; exact hall k (by omega))]
  simp [emit]

/-- C9 as stated fails for count = 0: `injectTouch` on descriptor 3 with an
empty point array and count 0 writes no event at all, so no sync report,
where the claim has exactly one. -/
theorem inject_zero_points_emits_nothing :
    injectTouch 3 [] 0 = [] ∧ syncReports (injectTouch 3 [] 0) = 0 ∧
    syncReports (injectTouch 3 [] 0) ≠ 1 := by
  decide

/-- C9 (amended): on a valid descriptor, injectTouch with count = 0 writes no
event at all (no coordinate event and no sync report); with a positive count
of points that all have trackingId = -1 it writes, per point in order, the
slot-select and trackingId -1, no X or Y coordinate event, and exactly one
sync report, as the last event. -/
theorem inject_released_points (fd : Int) (hfd : 0 ≤ fd) (pts : List Int) (count : Int)
    (hcount : 0 < count)
    (hall : ∀ i : Nat, (i : Int) < count → pts.getD (i * 4 + 3) 0 = -1) :
    (∀ e ∈ injectTouch fd pts count, ¬ e.isCoordinate) ∧
    syncReports (injectTouch fd pts count) = 1 ∧
    (injectTouch fd pts count).getLast? = some ⟨EV_SYN, SYN_REPORT, 0⟩ ∧
    injectTouch fd pts count =
      ((List.range count.toNat).flatMap fun k =>
        [⟨EV_ABS, ABS_MT_SLOT, pts.getD (k * 4 + 0) 0⟩, ⟨EV_ABS, ABS_MT_TRACKING_ID, -1⟩]) ++
      [⟨EV_SYN, SYN_REPORT, 0⟩] ∧
    (∀ pts0 : List Int, injectTouch fd pts0 0 = []) := by
  have heq := injectTouch_released fd hfd pts count hcount hall
  refine ⟨?_, ?_, ?_, heq, ?_⟩
  · intro e he
    rw [heq] at he
    simp only [List.mem_append, List.mem_flatMap, List.mem_range, List.mem_cons,
      List.mem_singleton, List.not_mem_nil, or_false] at he
    unfold InputEvent.isCoordinate
    rcases he with ⟨k, -, rfl | rfl⟩ | rfl <;>
      simp [EV_ABS, EV_SYN, ABS_MT_SLOT, ABS_MT_TRACKING_ID, ABS_MT_POSITION_X,
        ABS_MT_POSITION_Y]
  · rw [heq]
    unfold syncReports
    rw [List.countP_append]
    have h0 : List.countP (fun e : InputEvent => decide e.isSyncReport)
        ((List.range count.toNat).flatMap fun k =>
          [⟨EV_ABS, ABS_MT_SLOT, pts.getD (k * 4 + 0) 0⟩,
            ⟨EV_ABS, ABS_MT_TRACKING_ID, -1⟩]) = 0 := by
      rw [List.countP_eq_zero]
      intro e he
      simp only [List.mem_flatMap, List.mem_range, List.mem_cons, List.mem_singleton,
        List.not_mem_nil, or_false] at he
      rcases he with ⟨k, -, rfl | rfl⟩ <;>
        simp [InputEvent.isSyncReport, EV_ABS, EV_SYN]
    rw [h0]
    decide
  · rw [heq, List.getLast?_concat]
  · intro pts0
    simp [injectTouch]

/-- A concrete instance: two points, both with trackingId -1. -/
theorem inject_released_points_witness :
    (0 : Int) ≤ 3 ∧ (0 : Int) < 2 ∧
    (∀ i : Nat, (i : Int) < 2 → [(0 : Int), 10, 20, -1, 1, 30, 40, -1].getD (i * 4 + 3) 0 = -1) ∧
    syncReports (injectTouch 3 [0, 10, 20, -1, 1, 30, 40, -1] 2) = 1 :=
  ⟨by decide, by decide,
    fun i hi => by
      have : i = 0 ∨ i = 1 := by omega
      rcases this with rfl | rfl <;> rfl,
    (inject_released_points 3 (by decide) [0, 10, 20, -1, 1, 30, 40, -1] 2 (by decide)
      (fun i hi => by
        have : i = 0 ∨ i = 1 := by omega
        rcases this with rfl | rfl <;> rfl)).2.1⟩

/-! ## releaseAllTouches -/

theorem releaseLoop_eq (n i : Nat) (out : List InputEvent) :
    releaseLoop n i out =
      out ++ (List.range n).flatMap fun k =>
        [⟨EV_ABS, ABS_MT_SLOT, ((i + k : Nat) : Int)⟩, ⟨EV_ABS, ABS_MT_TRACKING_ID, -1⟩] := by
  induction n generalizing i out with
  | zero => simp [releaseLoop]
  | succ n ih =>
    rw [releaseLoop, ih (i + 1), List.range_succ_eq_map, List.flatMap_cons, List.flatMap_map]
    simp only [emit, List.append_assoc, List.singleton_append, List.cons_append,
      List.nil_append, Nat.add_zero, Nat.succ_eq_add_one]
    congr 3
    apply List.flatMap_congr
    intro k _
    rw [show i + 1 + k = i + (k + 1) from by omega]

theorem releaseAllTouches_eq (fd : Int) (hfd : 0 ≤ fd) (count : Int) :
    releaseAllTouches fd count = releaseEvents count.toNat ++ [⟨EV_SYN, SYN_REPORT, 0⟩] := by
  unfold releaseAllTouches releaseEvents
  rw [if_neg (by omega), releaseLoop_eq]
  simp [emit]

theorem releaseEvents_succ (n : Nat) :
    releaseEvents (n + 1) =
      releaseEvents n ++ [⟨EV_ABS, ABS_MT_SLOT, (n : Int)⟩, ⟨EV_ABS, ABS_MT_TRACKING_ID, -1⟩] := by
  simp [releaseEvents, List.range_succ, List.flatMap_append]

theorem releaseEvents_length (n : Nat) : (releaseEvents n).length = 2 * n := by
  induction n with
  | zero => rfl
  | succ n ih => rw [releaseEvents_succ, List.length_append, ih]; simp; omega

theorem releaseEvents_getElem? (n i : Nat) (hi : i < n) :
    (releaseEvents n)[2 * i]? = some ⟨EV_ABS, ABS_MT_SLOT, (i : Int)⟩ ∧
    (releaseEvents n)[2 * i + 1]? = some ⟨EV_ABS, ABS_MT_TRACKING_ID, -1⟩ := by
  induction n with
  | zero => omega
  | succ n ih =>
    rw [releaseEvents_succ]
    by_cases h : i < n
    · obtain ⟨h1, h2⟩ := ih h
      have l := releaseEvents_length n
      rw [List.getElem?_append_left (by omega), List.getElem?_append_left (by omega)]
      exact ⟨h1, h2⟩
    · have : i = n := by omega
      subst this
      have l := releaseEvents_length i
      rw [List.getElem?_append_right (by omega), List.getElem?_append_right (by omega)]
      simp [l]

theorem releaseEvents_no_sync (n : Nat) :
    ∀ e ∈ releaseEvents n, ¬ e.isSyncReport ∧ ¬ e.isSyncDropped := by
  intro e he
  simp only [releaseEvents, List.mem_flatMap, List.mem_range, List.mem_cons,
    List.mem_singleton, List.not_mem_nil, or_false] at he
  rcases he with ⟨k, -, rfl | rfl⟩ <;>
    simp [InputEvent.isSyncReport, InputEvent.isSyncDropped, EV_ABS, EV_SYN]

/-- Decoded by the slot protocol of the event handler, the release events of
slots 0..n-1 leave each of these slots unoccupied. -/
theorem releaseEvents_decoded (n : Nat) (hn : n ≤ MAX_SLOTS) (st : Dispatcher) (hwf : st.WF)
    (i : Nat) (hi : i < n) :
    (readSlot (processEvents st (releaseEvents n)).1.slots i).tracking_id = -1 ∧
      (readSlot (processEvents st (releaseEvents n)).1.slots i).active = 0 := by
  induction n with
  | zero => omega
  | succ n ih =>
    rw [releaseEvents_succ, processEvents_append]
    have hwf1 : (processEvents st (releaseEvents n)).1.WF := processEvents_WF _ _ hwf
    generalize (processEvents st (releaseEvents n)).1 = s1 at hwf1 ih ⊢
    have hn' : (n : Int) < 10 := by simp only [MAX_SLOTS] at hn; omega
    have hsel : selectedAfter s1.current_slot ⟨EV_ABS, ABS_MT_SLOT, (n : Int)⟩ = (n : Int) := by
      simp only [selectedAfter, and_self, if_true]
      split_ifs <;> omega
    have hrun : ∀ e ∈ [(⟨EV_ABS, ABS_MT_SLOT, (n : Int)⟩ : InputEvent),
        ⟨EV_ABS, ABS_MT_TRACKING_ID, -1⟩], ¬ e.isSyncReport ∧ ¬ e.isSyncDropped := by
      intro e he
      simp only [List.mem_cons, List.mem_singleton, List.not_mem_nil, or_false] at he
      rcases he with rfl | rfl <;>
        simp [InputEvent.isSyncReport, InputEvent.isSyncDropped, EV_ABS, EV_SYN]
    have ht := processEvents_field s1 hwf1 _ hrun Field.trackingId i
    have ha := processEvents_field s1 hwf1 _ hrun Field.active i
    simp only [SlotState.field] at ht ha
    simp only []
    rw [ht, ha]
    simp only [lastWrite, hsel]
    by_cases h : i < n
    · obtain ⟨i1, i2⟩ := ih (by omega) h
      have hne : ¬ ((n : Int) = (i : Int)) := by omega
      simp [hne, written, i1, i2, ABS_MT_SLOT, ABS_MT_TRACKING_ID, SlotState.field, EV_ABS]
    · have : i = n := by omega
      subst this
      simp [written, ABS_MT_SLOT, ABS_MT_TRACKING_ID, SlotState.field, EV_ABS]

theorem handleEvent_syn_report_slots (st : Dispatcher) (e : InputEvent) (h : e.isSyncReport) :
    (handleEvent st e).1.slots = st.slots := by
  rw [handleEvent_syn_report st e h, dispatch_frame_eq]
  split_ifs <;> rfl

/-- C10: on a valid descriptor, for every count, releaseAllTouches(count)
writes, for i = 0, 1, ..., count-1 in that order, a slot-select of i
immediately followed by trackingId -1, then one sync report as the last
event, and nothing else: 2*count + 1 events with exactly one sync report;
only the sync report when count <= 0. Decoded by the slot protocol of the
event handler (for count up to its 10 slots), every slot 0..count-1 is left
with trackingId -1. -/
theorem release_all_sequence (fd : Int) (hfd : 0 ≤ fd) (count : Int) :
    releaseAllTouches fd count = releaseEvents count.toNat ++ [⟨EV_SYN, SYN_REPORT, 0⟩] ∧
    (releaseAllTouches fd count).length = 2 * count.toNat + 1 ∧
    (∀ i : Nat, (i : Int) < count →
      (releaseAllTouches fd count)[2 * i]? = some ⟨EV_ABS, ABS_MT_SLOT, (i : Int)⟩ ∧
      (releaseAllTouches fd count)[2 * i + 1]? = some ⟨EV_ABS, ABS_MT_TRACKING_ID, -1⟩) ∧
    (releaseAllTouches fd count)[2 * count.toNat]? = some ⟨EV_SYN, SYN_REPORT, 0⟩ ∧
    syncReports (releaseAllTouches fd count) = 1 ∧
    (count ≤ 0 → releaseAllTouches fd count = [⟨EV_SYN, SYN_REPORT, 0⟩]) ∧
    (count ≤ 10 → ∀ st : Dispatcher, st.WF → ∀ i : Nat, (i : Int) < count →
      (readSlot (processEvents st (releaseAllTouches fd count)).1.slots i).tracking_id = -1) := by
  have heq := releaseAllTouches_eq fd hfd count
  have hlen := releaseEvents_length count.toNat
  refine ⟨heq, ?_, ?_, ?_, ?_, ?_, ?_⟩
  · rw [heq, List.length_append, hlen]; rfl
  · intro i hi
    have hi' : i < count.toNat := by omega
    obtain ⟨h1, h2⟩ := releaseEvents_getElem? count.toNat i hi'
    rw [heq, List.getElem?_append_left (by omega), List.getElem?_append_left (by omega)]
    exact ⟨h1, h2⟩
  · rw [heq, List.getElem?_append_right (by omega)]
    simp [hlen]
  · rw [heq]
    unfold syncReports
    rw [List.countP_append]
    have h0 : List.countP (fun e : InputEvent => decide e.isSyncReport)
        (releaseEvents count.toNat) = 0 := by
      rw [List.countP_eq_zero]
      intro e he
      simpa using (releaseEvents_no_sync _ e he).1
    rw [h0]
    decide
  · intro hc
    have : count.toNat = 0 := by omega
    rw [heq, this]
    rfl
  · intro hc st hwf i hi
    rw [heq, processEvents_append]
    show (readSlot (processEvents (processEvents st (releaseEvents count.toNat)).1
      [⟨EV_SYN, SYN_REPORT, 0⟩]).1.slots i).tracking_id = -1
    have hs : (processEvents (processEvents st (releaseEvents count.toNat)).1
        [⟨EV_SYN, SYN_REPORT, 0⟩]).1.slots =
        (processEvents st (releaseEvents count.toNat)).1.slots :=
      handleEvent_syn_report_slots _ _ ⟨rfl, rfl⟩
    rw [hs]
    exact (releaseEvents_decoded count.toNat (by simp only [MAX_SLOTS]; omega) st hwf i
      (by omega)).1

/-- A concrete instance: count = 2 on descriptor 3. -/
theorem release_all_sequence_witness :
    (0 : Int) ≤ 3 ∧
    releaseAllTouches 3 2 =
      [⟨EV_ABS, ABS_MT_SLOT, 0⟩, ⟨EV_ABS, ABS_MT_TRACKING_ID, -1⟩,
        ⟨EV_ABS, ABS_MT_SLOT, 1⟩, ⟨EV_ABS, ABS_MT_TRACKING_ID, -1⟩,
        ⟨EV_SYN, SYN_REPORT, 0⟩] ∧
    releaseAllTouches 3 2 = releaseEvents (2 : Int).toNat ++ [⟨EV_SYN, SYN_REPORT, 0⟩] :=
  ⟨by decide, by decide, (release_all_sequence 3 (by decide) 2).1⟩

/-! ## Descriptor handoff -/

theorem nfdsOf_carries (abi : Abi) (habi : abi.sane) (cmsg : Cmsghdr) (h : cmsg.carries abi) :
    nfdsOf abi cmsg.cmsg_len = (cmsg.data.length : Int) := by
  obtain ⟨h1, h2⟩ := h
  unfold Abi.sane at habi
  unfold nfdsOf
  have e1 : abi.cmsg_len0 % abi.size_modulus = abi.cmsg_len0 := Nat.mod_eq_of_lt (by omega)
  have e2 : (cmsg.cmsg_len + abi.size_modulus - abi.cmsg_len0) % abi.size_modulus =
      4 * cmsg.data.length := by
    rw [h1, show abi.cmsg_len0 + 4 * cmsg.data.length + abi.size_modulus - abi.cmsg_len0 =
      4 * cmsg.data.length + abi.size_modulus from by omega, Nat.add_mod_right]
    exact Nat.mod_eq_of_lt (by omega)
  rw [e1, e2, Nat.mul_div_cancel_left _ (by decide : 0 < 4)]
  unfold wrap32
  omega

/-- C11: once a connection is accepted, the control buffer allocated and a
message received, receiveFdsFromHelper returns null exactly when the first
ancillary header of the message is absent or its type is not SCM_RIGHTS;
otherwise it returns a 2-element array, and for a header that carries k
descriptors (k = 0, 1 or 2, cmsg_len being CMSG_LEN of k ints) the first k
slots are those descriptors in sender order and every remaining slot
is -1. -/
theorem handoff_result (abi : Abi) (habi : abi.sane) (env : HandoffEnv)
    (haccept : 0 ≤ env.accept) (hcalloc : env.calloc_ok = true) (hrecv : 0 ≤ env.nrecv) :
    (receiveFdsFromHelper abi env = none ↔
      (env.first_hdr = none ∨ ∃ cmsg, env.first_hdr = some cmsg ∧ cmsg.cmsg_type ≠ SCM_RIGHTS)) ∧
    (∀ cmsg, env.first_hdr = some cmsg → cmsg.cmsg_type = SCM_RIGHTS →
      (∃ fd0 fd1, receiveFdsFromHelper abi env = some [fd0, fd1]) ∧
      (cmsg.carries abi →
        receiveFdsFromHelper abi env = some [cmsg.data.getD 0 (-1), cmsg.data.getD 1 (-1)] ∧
        (cmsg.data = [] → receiveFdsFromHelper abi env = some [-1, -1]) ∧
        (∀ a, cmsg.data = [a] → receiveFdsFromHelper abi env = some [a, -1]) ∧
        (∀ a b, cmsg.data = [a, b] → receiveFdsFromHelper abi env = some [a, b]))) := by
  have hstep : receiveFdsFromHelper abi env =
      match env.first_hdr with
      | none => none
      | some cmsg =>
        if cmsg.cmsg_type ≠ SCM_RIGHTS then none
        else some [if nfdsOf abi cmsg.cmsg_len ≥ 1 then cmsg.data.getD 0 0 else -1,
          if nfdsOf abi cmsg.cmsg_len ≥ 2 then cmsg.data.getD 1 0 else -1] := by
    unfold receiveFdsFromHelper
    rw [if_neg (by omega), if_neg (by simp [hcalloc]), if_neg (by omega)]
  constructor
  · rw [hstep]
    cases hh : env.first_hdr with
    | none => simp
    | some cmsg =>
      by_cases ht : cmsg.cmsg_type = SCM_RIGHTS <;> simp [ht]
  · intro cmsg hh ht
    rw [hstep, hh]
    simp only [ht, ne_eq, not_true_eq_false, if_false]
    refine ⟨⟨_, _, rfl⟩, ?_⟩
    intro hc
    have hn := nfdsOf_carries abi habi cmsg hc
    have hlen := hc.2
    have hmain : (some [if nfdsOf abi cmsg.cmsg_len ≥ 1 then cmsg.data.getD 0 0 else -1,
        if nfdsOf abi cmsg.cmsg_len ≥ 2 then cmsg.data.getD 1 0 else -1] : Option (List Int)) =
        some [cmsg.data.getD 0 (-1), cmsg.data.getD 1 (-1)] := by
      rw [hn]
      match hd : cmsg.data with
      | [] => simp
      | [a] => simp
      | [a, b] => simp
      | a :: b :: c :: rest => rw [hd] at hlen; simp at hlen
    rw [hmain]
    refine ⟨rfl, ?_, ?_, ?_⟩
    · intro h; rw [h]; rfl
    · intro a h; rw [h]; rfl
    · intro a b h; rw [h]; rfl

/-- A concrete instance: the helper's message with descriptors 7 and 8 on the
64-bit ABI. -/
theorem handoff_result_witness :
    abi64.sane ∧ (0 : Int) ≤ 5 ∧ (0 : Int) ≤ 1 ∧
    receiveFdsFromHelper abi64 ⟨5, true, 1, some ⟨24, SOL_SOCKET, SCM_RIGHTS, [7, 8]⟩⟩ =
      some [7, 8] :=
  ⟨by decide, by decide, by decide,
    ((handoff_result abi64 (by decide) ⟨5, true, 1, some ⟨24, SOL_SOCKET, SCM_RIGHTS, [7, 8]⟩⟩
      (by decide) rfl (by decide)).2 ⟨24, SOL_SOCKET, SCM_RIGHTS, [7, 8]⟩ rfl rfl).2
        (by decide) |>.2.2.2 7 8 rfl⟩

/-! ## The exit status of the helper -/

theorem connectLoop_spec (connect : Nat → Int) (r i : Nat) :
    ((connectLoop connect r i).1 < 0 ↔ ∀ k, k < r → connect (i + k) ≠ 0) ∧
    (connectLoop connect r i).2 ≤ i + r ∧
    ((connectLoop connect r i).1 < 0 → (connectLoop connect r i).2 = i + r) ∧
    (∀ k, k < r → connect (i + k) = 0 → (∀ j, j < k → connect (i + j) ≠ 0) →
      (connectLoop connect r i).2 = i + k + 1) := by
  induction r generalizing i with
  | zero =>
    refine ⟨⟨fun _ k hk => absurd hk (Nat.not_lt_zero k), fun _ => by simp [connectLoop]⟩,
      Nat.le_refl _, fun _ => rfl, fun k hk => absurd hk (Nat.not_lt_zero k)⟩
  | succ r ih =>
    obtain ⟨i1, i2, i3, i4⟩ := ih (i + 1)
    unfold connectLoop
    by_cases hc : connect i = 0
    · rw [if_pos hc]
      refine ⟨⟨fun h => ?_, fun h => ?_⟩, by simp only []; omega, fun h => ?_, ?_⟩
      · simp only [] at h; omega
      · exact absurd hc (by simpa using h 0 (Nat.succ_pos r))
      · simp only [] at h; omega
      · intro k hk hk0 hlt
        have : k = 0 := by
          by_contra hne
          exact hlt 0 (Nat.pos_of_ne_zero hne) (by simpa using hc)
        subst this
        rfl
    · rw [if_neg hc]
      refine ⟨⟨fun h k hk => ?_, fun h => ?_⟩, by omega, fun h => ?_, ?_⟩
      · cases k with
        | zero => simpa using hc
        | succ k =>
          have := i1.mp h k (by omega)
          rwa [show i + 1 + k = i + (k + 1) from by omega] at this
      · apply i1.mpr
        intro k hk
        have := h (k + 1) (by omega)
        rwa [show i + (k + 1) = i + 1 + k from by omega] at this
      · have := i3 h; omega
      · intro k hk hk0 hlt
        cases k with
        | zero => exact absurd (by simpa using hk0) hc
        | succ k =>
          have := i4 k (by omega)
            (by rwa [show i + 1 + k = i + (k + 1) from by omega])
            (fun j hj => by
              have := hlt (j + 1) (by omega)
              rwa [show i + (j + 1) = i + 1 + j from by omega] at this)
          omega

theorem main_status (env : HelperEnv) :
    (main env).status =
      if env.argc < 3 then 1
      else if env.open_rdwr < 0 ∧ env.open_rdonly < 0 then 2
      else if env.socket < 0 then 3
      else if (connectLoop env.connect 20 0).1 < 0 then 4
      else 0 := by
  unfold main
  by_cases h1 : env.argc < 3
  · simp [h1]
  · by_cases ha : env.open_rdwr < 0 <;> by_cases hb : env.open_rdonly < 0 <;>
      by_cases h3 : env.socket < 0 <;>
      by_cases h4 : (connectLoop env.connect 20 0).1 < 0 <;>
      simp [h1, ha, hb, h3, h4]

theorem main_connects_eq (env : HelperEnv) :
    (main env).connects =
      if env.argc < 3 then 0
      else if env.open_rdwr < 0 ∧ env.open_rdonly < 0 then 0
      else if env.socket < 0 then 0
      else (connectLoop env.connect 20 0).2 := by
  unfold main
  by_cases h1 : env.argc < 3
  · simp [h1]
  · by_cases ha : env.open_rdwr < 0 <;> by_cases hb : env.open_rdonly < 0 <;>
      by_cases h3 : env.socket < 0 <;>
      by_cases h4 : (connectLoop env.connect 20 0).1 < 0 <;>
      simp [h1, ha, hb, h3, h4]

theorem main_connects (env : HelperEnv) : (main env).connects ≤ 20 := by
  have h := (connectLoop_spec env.connect 20 0).2.1
  rw [main_connects_eq]
  split_ifs <;> omega

/-- C12: the exit status of the helper is 1 exactly when argc is below 3
(fewer than two arguments); otherwise 2 exactly when the device can be opened
neither read-write nor read-only; otherwise 3 exactly when the socket cannot
be created; otherwise 4 exactly when each of the 20 connect attempts fails,
and 0 as soon as one of them succeeds, the 20th included, no further attempt
being made after a success; at most 20 attempts are made. The results of the
grab and of opening the auxiliary node do not change the status. -/
theorem helper_exit_status (env : HelperEnv) :
    ((main env).status = 1 ↔ env.argc < 3) ∧
    (3 ≤ env.argc →
      ((main env).status = 2 ↔ (env.open_rdwr < 0 ∧ env.open_rdonly < 0)) ∧
      (¬ (env.open_rdwr < 0 ∧ env.open_rdonly < 0) →
        ((main env).status = 3 ↔ env.socket < 0) ∧
        (0 ≤ env.socket →
          ((main env).status = 4 ↔ ∀ i, i < 20 → env.connect i ≠ 0) ∧
          ((main env).status = 0 ↔ ∃ i, i < 20 ∧ env.connect i = 0) ∧
          (∀ i, i < 20 → env.connect i = 0 → (∀ j, j < i → env.connect j ≠ 0) →
            (main env).connects = i + 1)))) ∧
    (main env).connects ≤ 20 ∧
    (∀ grab uinput : Int,
      (main { env with ioctl_grab := grab, open_uinput := uinput }).status =
        (main env).status) := by
  have hs := main_status env
  obtain ⟨c1, -, -, c4⟩ := connectLoop_spec env.connect 20 0
  simp only [Nat.zero_add] at c1 c4
  refine ⟨?_, ?_, main_connects env, ?_⟩
  · rw [hs]
    split_ifs <;> simp_all
  · intro h3
    have n1 : ¬ env.argc < 3 := by omega
    rw [hs, if_neg n1]
    refine ⟨?_, ?_⟩
    · split_ifs <;> simp_all
    · intro hopen
      rw [if_neg hopen]
      refine ⟨?_, ?_⟩
      · split_ifs <;> simp_all
      · intro hsock
        have n3 : ¬ env.socket < 0 := by omega
        rw [if_neg n3]
        refine ⟨?_, ?_, ?_⟩
        · rw [← c1]
          split_ifs with h <;> simp [h]
        · have : (∃ i, i < 20 ∧ env.connect i = 0) ↔ ¬ (connectLoop env.connect 20 0).1 < 0 := by
            rw [c1]
            push_neg
            rfl
          rw [this]
          split_ifs with h <;> simp [h]
        · intro i hi h0 hlt
          have hc := c4 i hi h0 hlt
          have hnot : ¬ (connectLoop env.connect 20 0).1 < 0 := by
            rw [c1]
            push_neg
            exact ⟨i, hi, h0⟩
          rw [main_connects_eq, if_neg n1, if_neg hopen, if_neg n3]
          simpa using hc
  · intro grab uinput
    rw [main_status, main_status]

/-- A concrete instance: `connect` succeeds on the 20th attempt only, then
never. -/
theorem helper_exit_status_witness :
    (3 : Int) ≤ helperEnvLate.argc ∧
    ¬ (helperEnvLate.open_rdwr < 0 ∧ helperEnvLate.open_rdonly < 0) ∧
    (0 : Int) ≤ helperEnvLate.socket ∧
    (main helperEnvLate).status = 0 ∧ (main helperEnvLate).connects = 19 + 1 ∧
    main helperEnvLate = ⟨0, 20, some [3, 4]⟩ ∧
    main helperEnvNever = ⟨4, 20, none⟩ :=
  ⟨by decide, by decide, by decide,
    ((((helper_exit_status helperEnvLate).2.1 (by decide)).2 (by decide)).2
      (by decide)).2.1.mpr ⟨19, by decide, by decide⟩,
    ((((helper_exit_status helperEnvLate).2.1 (by decide)).2 (by decide)).2
      (by decide)).2.2 19 (by decide) (by decide)
        (fun j hj => by
          have : helperEnvLate.connect j = -1 := by
            show (if j = 19 then (0 : Int) else -1) = -1
            rw [if_neg (by omega)]
          rw [this]; decide),
    by decide, by decide⟩

/-! ## Device creation and the accumulators -/

/-- C13 as stated fails: from the process image at load, a device is created
on descriptor 3, wheelHiRes(50, -30) is called on it, and a second
createMouseDevice succeeds with descriptor 4; the accumulators are then 50
and -30, not 0. -/
theorem create_after_scroll_keeps_remainder :
    (runCalls loadedMouse
      [MouseCall.createMouseDevice 3 true true, MouseCall.sendWheelHiRes 3 50 (-30)]).1 =
      ⟨3, 50, -30⟩ ∧
    createMouseDevice ⟨3, 50, -30⟩ 4 true true = (⟨4, 50, -30⟩, 4) ∧
    (createMouseDevice ⟨3, 50, -30⟩ 4 true true).1.hiResAccV ≠ 0 ∧
    (createMouseDevice ⟨3, 50, -30⟩ 4 true true).1.hiResAccH ≠ 0 := by
  decide

/-- C13 (amended): createMouseDevice leaves the vertical and the horizontal
hi-res accumulator as they are, whether it succeeds or fails; so after a
successful createMouseDevice both are 0 when they were 0 before the call, as
they are in the process image at load and right after destroyMouseDevice on a
valid descriptor, which resets them whatever values earlier wheelHiRes calls
left in them. -/
theorem create_keeps_accumulators (m : Mouse) (fd : Int) (setupOk createOk : Bool) :
    ((createMouseDevice m fd setupOk createOk).1.hiResAccV = m.hiResAccV ∧
      (createMouseDevice m fd setupOk createOk).1.hiResAccH = m.hiResAccH) ∧
    (m.hiResAccV = 0 → m.hiResAccH = 0 →
      (createMouseDevice m fd setupOk createOk).1.hiResAccV = 0 ∧
        (createMouseDevice m fd setupOk createOk).1.hiResAccH = 0) ∧
    ((createMouseDevice loadedMouse fd setupOk createOk).1.hiResAccV = 0 ∧
      (createMouseDevice loadedMouse fd setupOk createOk).1.hiResAccH = 0) ∧
    (∀ dfd : Int, 0 ≤ dfd →
      ((destroyMouseDevice m dfd).1.hiResAccV = 0 ∧ (destroyMouseDevice m dfd).1.hiResAccH = 0) ∧
      (createMouseDevice (destroyMouseDevice m dfd).1 fd setupOk createOk).1.hiResAccV = 0 ∧
      (createMouseDevice (destroyMouseDevice m dfd).1 fd setupOk createOk).1.hiResAccH = 0) ∧
    (0 ≤ (createMouseDevice m fd setupOk createOk).2 ↔
      (0 ≤ fd ∧ setupOk = true ∧ createOk = true)) := by
  have keep : ∀ m0 : Mouse,
      (createMouseDevice m0 fd setupOk createOk).1.hiResAccV = m0.hiResAccV ∧
        (createMouseDevice m0 fd setupOk createOk).1.hiResAccH = m0.hiResAccH := by
    intro m0
    unfold createMouseDevice
    split_ifs <;> exact ⟨rfl, rfl⟩
  have hd : ∀ dfd : Int, 0 ≤ dfd →
      (destroyMouseDevice m dfd).1.hiResAccV = 0 ∧ (destroyMouseDevice m dfd).1.hiResAccH = 0 := by
    intro dfd h
    unfold destroyMouseDevice
    rw [if_neg (by omega)]
    exact ⟨rfl, rfl⟩
  refine ⟨keep m, ?_, ?_, ?_, ?_⟩
  · intro hv hh
    rw [(keep m).1, (keep m).2]
    exact ⟨hv, hh⟩
  · rw [(keep loadedMouse).1, (keep loadedMouse).2]
    exact ⟨rfl, rfl⟩
  · intro dfd h
    rw [(keep _).1, (keep _).2]
    exact ⟨hd dfd h, (hd dfd h).1, (hd dfd h).2⟩
  · unfold createMouseDevice
    by_cases h1 : fd < 0
    · simp [h1]
    · cases setupOk <;> cases createOk <;> simp [h1]

/-- A concrete instance: create, scroll, destroy, create again. -/
theorem create_keeps_accumulators_witness :
    (0 : Int) ≤ 3 ∧
    (createMouseDevice (destroyMouseDevice ⟨3, 50, -30⟩ 3).1 4 true true).1 = ⟨4, 0, 0⟩ ∧
    (createMouseDevice (destroyMouseDevice ⟨3, 50, -30⟩ 3).1 4 true true).1.hiResAccV = 0 :=
  ⟨by decide, by decide,
    ((create_keeps_accumulators ⟨3, 50, -30⟩ 4 true true).2.2.2.1 3 (by decide)).2.1⟩

/-! ## The selected slot stays inside the slot table -/

theorem selectedAfter_range (cur : Int) (e : InputEvent)
    (h : 0 ≤ cur ∧ cur < (MAX_SLOTS : Int)) :
    0 ≤ selectedAfter cur e ∧ selectedAfter cur e < (MAX_SLOTS : Int) := by
  unfold selectedAfter
  simp only [MAX_SLOTS] at *
  split_ifs <;> omega

theorem handleEvent_slots_length (st : Dispatcher) (e : InputEvent)
    (h : st.slots.length = MAX_SLOTS) : (handleEvent st e).1.slots.length = MAX_SLOTS := by
  unfold handleEvent dispatch_frame
  split_ifs <;> simp [length_writeSlot, zeroedSlots, h]

theorem handleEvent_slotInRange (st : Dispatcher) (e : InputEvent) (h : st.slotInRange) :
    (handleEvent st e).1.slotInRange := by
  obtain ⟨h1, h2, h3⟩ := h
  refine ⟨handleEvent_slots_length st e h1, ?_, ?_⟩
  · rw [handleEvent_current_slot]; exact (selectedAfter_range _ e ⟨h2, h3⟩).1
  · rw [handleEvent_current_slot]; exact (selectedAfter_range _ e ⟨h2, h3⟩).2

theorem processEvents_slotInRange (evs : List InputEvent) (st : Dispatcher)
    (h : st.slotInRange) : (processEvents st evs).1.slotInRange := by
  induction evs generalizing st with
  | nil => exact h
  | cons e rest ih => exact ih _ (handleEvent_slotInRange st e h)

theorem loopBody_slotInRange (st : Dispatcher) (it : Iteration) (h : st.slotInRange) :
    (loopBody st it).1.slotInRange := by
  unfold loopBody
  simp only []
  split_ifs
  all_goals first
    | exact h
    | exact processEvents_slotInRange _ _ h

theorem eventLoop_slotInRange (its : List Iteration) (st : Dispatcher) (h : st.slotInRange) :
    (eventLoop st its).1.slotInRange := by
  induction its generalizing st with
  | nil => exact h
  | cons it rest ih =>
    unfold eventLoop
    simp only []
    split_ifs
    · exact h
    · exact loopBody_slotInRange st it h
    · exact ih _ (loopBody_slotInRange st it h)

theorem startState_slotInRange (g : Dispatcher) : (startState g).slotInRange := by
  refine ⟨by simp [startState, zeroedSlots], by simp [startState], by simp [startState, MAX_SLOTS]⟩

/-- C14: for every input event stream, whatever values its slot-select
events carry, in every state the dispatcher reaches after the initialisation
of startEventLoop (the initial state, the state after each event, sync
dropped included, and the state after any passes of the loop) the slot table
has 10 entries and the selected slot index is within 0..9, so the entry a
tracking-id, X or Y event writes exists; a slot-select with a value below 0
selects slot 0, one with a value of 10 or more selects slot 9, any other
selects its value. -/
theorem selected_slot_in_range (g : Dispatcher) (evs : List InputEvent) :
    (startState g).slotInRange ∧
    (processEvents (startState g) evs).1.slotInRange ∧
    (0 ≤ (processEvents (startState g) evs).1.current_slot ∧
      (processEvents (startState g) evs).1.current_slot.toNat <
        (processEvents (startState g) evs).1.slots.length) ∧
    (∀ (fd : Int) (its : List Iteration), 0 ≤ fd →
      (startEventLoop g fd its).1.slotInRange) ∧
    (∀ (st : Dispatcher) (e : InputEvent), st.slotInRange →
      (handleEvent st e).1.slotInRange) ∧
    (∀ (st : Dispatcher) (e : InputEvent), e.type = EV_ABS → e.code = ABS_MT_SLOT →
      (e.value < 0 → (handleEvent st e).1.current_slot = 0) ∧
      (10 ≤ e.value → (handleEvent st e).1.current_slot = 9) ∧
      (0 ≤ e.value → e.value < 10 → (handleEvent st e).1.current_slot = e.value)) := by
  have h0 := startState_slotInRange g
  have h1 := processEvents_slotInRange evs _ h0
  refine ⟨h0, h1, ?_, ?_, fun st e h => handleEvent_slotInRange st e h, ?_⟩
  · obtain ⟨a, b, c⟩ := h1
    simp only [MAX_SLOTS] at a c
    rw [a]
    omega
  · intro fd its hfd
    unfold startEventLoop
    rw [if_neg (by omega)]
    exact eventLoop_slotInRange its _ h0
  · intro st e ht hc
    rw [handleEvent_current_slot]
    unfold selectedAfter
    rw [if_pos ⟨ht, hc⟩]
    refine ⟨fun h => ?_, fun h => ?_, fun h h' => ?_⟩
    · rw [if_pos h]
    · rw [if_neg (by omega), if_pos (by omega)]
    · rw [if_neg (by omega), if_neg (by omega)]

/-- A concrete instance: slot-selects of -5 and of 2147483647 around a
tracking id and a sync dropped, and one pass of the loop that reads a
slot-select of 12. -/
theorem selected_slot_in_range_witness :
    (processEvents (startState bootGlobals)
      [⟨EV_ABS, ABS_MT_SLOT, -5⟩, ⟨EV_ABS, ABS_MT_TRACKING_ID, 1⟩,
        ⟨EV_ABS, ABS_MT_SLOT, 2147483647⟩, ⟨EV_SYN, SYN_DROPPED, 0⟩]).1.slotInRange ∧
    (processEvents (startState bootGlobals)
      [⟨EV_ABS, ABS_MT_SLOT, -5⟩, ⟨EV_ABS, ABS_MT_TRACKING_ID, 1⟩,
        ⟨EV_ABS, ABS_MT_SLOT, 2147483647⟩, ⟨EV_SYN, SYN_DROPPED, 0⟩]).1.current_slot = 9 ∧
    (startEventLoop bootGlobals 3
      [readPass [⟨EV_ABS, ABS_MT_SLOT, 12⟩, ⟨EV_ABS, ABS_MT_TRACKING_ID, 7⟩]]).1.current_slot = 9 :=
  ⟨(selected_slot_in_range bootGlobals _).2.1, by decide, by decide⟩

end BetterTouchpad
